import Mathlib

/-
Verification development for the raindrop-sync plugin (src/main.ts).

Modelling conventions for the shallow embedding:
  * Text is modelled as `List Char` (`Str`); `String` literals are converted
    with `str`.
  * JS `Date` timestamps are modelled as naturals rendered in decimal
    (`renderNat`), and `new Date(string)` by `parseTimestamp`, which reads a
    decimal digit string (an unparsable string behaves like the JS Invalid
    Date: every order comparison against it is false, which the call sites
    below reproduce by matching on `Option`).
  * The Obsidian vault is a list of files (path, content, modification time);
    folder handling (`ensureFolderExists`, `normalizePath`) is the identity in
    the model, and `vault.read` always succeeds.
  * The regular-expression extractions of the source are modelled by explicit
    leftmost-match scanners (`scanFirst`) whose anchored matchers reproduce the
    source patterns, including greedy/backtracking behaviour and the
    `$`-substitution rules of JavaScript `String.replace`.
-/

abbrev Str := List Char

def str (s : String) : Str := s.data

def nlC : Char := Char.ofNat 10

def quoteC : Char := Char.ofNat 34

def bslashC : Char := Char.ofNat 92

def dollarC : Char := Char.ofNat 36

def btickC : Char := Char.ofNat 96

def aposC : Char := Char.ofNat 39

/-- JS `\s` on the ASCII range: space, tab, newline, carriage return, form
feed and vertical tab. -/
def isWs (c : Char) : Bool :=
  c = ' ' || c = Char.ofNat 9 || c = nlC || c = Char.ofNat 13 ||
  c = Char.ofNat 12 || c = Char.ofNat 11

/-- JS `\w`: alphanumeric or underscore. -/
def isWordChar (c : Char) : Bool := c.isAlphanum || c = '_'

/-- JS `String.prototype.trim`: strip whitespace from both ends. -/
def trimStr (s : Str) : Str :=
  ((s.dropWhile isWs).reverse.dropWhile isWs).reverse

/-- Decimal digit character for a digit value (used by `renderNat`). -/
def digitChar (n : Nat) : Char :=
  match n with
  | 0 => '0' | 1 => '1' | 2 => '2' | 3 => '3' | 4 => '4'
  | 5 => '5' | 6 => '6' | 7 => '7' | 8 => '8' | _ => '9'

def renderNatFuel : Nat → Nat → Str
  | 0, _ => []
  | f + 1, n =>
    if n < 10 then [digitChar n]
    else renderNatFuel f (n / 10) ++ [digitChar (n % 10)]

/-- Decimal rendering of a natural; stands in for `Date.prototype.toISOString`
(timestamps are modelled as naturals). -/
def renderNat (n : Nat) : Str := renderNatFuel (n + 1) n

def digitVal (c : Char) : Nat := c.toNat - 48

def natOfDigits (s : Str) : Nat := s.foldl (fun a c => 10 * a + digitVal c) 0

/-- Model of `new Date(string)` on the timestamp strings this development
uses: a non-empty all-digit string parses to its value, anything else is the
JS Invalid Date (`none`). -/
def parseTimestamp (s : Str) : Option Nat :=
  if s ≠ [] ∧ s.all Char.isDigit then some (natOfDigits s) else none

/-- Leftmost-match scanner: try the anchored matcher `f` at every suffix of
the subject, left to right, like a JS regex engine advancing its lastIndex. -/
def scanFirst (f : Str → Option α) : Str → Option α
  | [] => f []
  | c :: s =>
    match f (c :: s) with
    | some r => some r
    | none => scanFirst f s

/-- First occurrence split: `splitFirst pat s = some (a, b)` when
`s = a ++ pat ++ b` with `pat` matching at the leftmost position. -/
def splitFirst (pat : Str) : Str → Option (Str × Str)
  | [] => if pat = [] then some ([], []) else none
  | c :: s =>
    if pat.isPrefixOf (c :: s) then some ([], (c :: s).drop pat.length)
    else
      match splitFirst pat s with
      | some (a, b) => some (c :: a, b)
      | none => none

/-- Substring test, as JS `String.prototype.includes`. -/
def sContains (s pat : Str) : Bool := (splitFirst pat s).isSome

/-- Split a string on a separator character (JS `String.prototype.split` with
a one-character separator). -/
def splitOnChar (sep : Char) : Str → List Str
  | [] => [[]]
  | c :: s =>
    if c = sep then [] :: splitOnChar sep s
    else
      match splitOnChar sep s with
      | l :: ls => (c :: l) :: ls
      | [] => [[c]]

def splitLines : Str → List Str := splitOnChar nlC

/-- GetSubstitution of JavaScript `String.replace` with a string replacement:
expand `$$`, `$&`, the prefix and suffix forms, and `$n` for the capture
groups, leaving any other `$` sequence literal.  `matched` is the matched
text, `before`/`after` the parts of the subject around the match. -/
def substTemplate (matched before after : Str) (groups : List Str) :
    Str → Str
  | [] => []
  | [c] => [c]
  | c :: d :: rest =>
    if c = dollarC then
      if d = dollarC then dollarC :: substTemplate matched before after groups rest
      else if d = '&' then matched ++ substTemplate matched before after groups rest
      else if d = btickC then before ++ substTemplate matched before after groups rest
      else if d = aposC then after ++ substTemplate matched before after groups rest
      else if d.isDigit then
        match rest with
        | e :: rest' =>
          if e.isDigit ∧ 1 ≤ 10 * digitVal d + digitVal e ∧
              10 * digitVal d + digitVal e ≤ groups.length then
            (groups.getD (10 * digitVal d + digitVal e - 1) []) ++
              substTemplate matched before after groups rest'
          else if 1 ≤ digitVal d ∧ digitVal d ≤ groups.length then
            (groups.getD (digitVal d - 1) []) ++
              substTemplate matched before after groups (e :: rest')
          else c :: d :: substTemplate matched before after groups (e :: rest')
        | [] =>
          if 1 ≤ digitVal d ∧ digitVal d ≤ groups.length then
            groups.getD (digitVal d - 1) []
          else [c, d]
      else c :: d :: substTemplate matched before after groups rest
    else c :: substTemplate matched before after groups (d :: rest)

/-- Anchored matcher for the frontmatter pattern `^---\n([\s\S]*?)\n---` at
the start of a document
(lines 267, 358, 790, 1021, 1098, 1153 of src/main.ts): the frontmatter block
is the lazily-shortest text between the opening `---` line and a following
`\n---`.  Returns (group 1, text after the full match). -/
def extractFrontmatter (s : Str) : Option (Str × Str) :=
  if (str "---\n").isPrefixOf s then splitFirst (str "\n---") (s.drop 4)
  else none

/-- Anchored matcher for `last_synced:\s*(.+)`: after the literal key the
greedy `\s*` and the greedy `(.+)` interact by backtracking; `(.+)` needs at
least one non-newline character.  Returns the captured group together with
the number of subject characters consumed by the whole match. -/
def anchValueAfter (key : Str) (s : Str) : Option (Str × Nat) :=
  if key.isPrefixOf s then
    let r := s.drop key.length
    let w := r.takeWhile isWs
    let rest := r.drop w.length
    if rest ≠ [] then
      let g := rest.takeWhile (· ≠ nlC)
      some (g, key.length + w.length + g.length)
    else
      -- the subject ends in whitespace: `\s*` backtracks to the last
      -- non-newline whitespace character, which `.+` then matches alone
      match w.reverse.dropWhile (· = nlC) with
      | [] => none
      | c :: pre => some ([c], key.length + pre.reverse.length + 1)
  else none

def matchLastSynced (s : Str) : Option Str :=
  scanFirst (fun t => (anchValueAfter (str "last_synced:") t).map Prod.fst) s

/-- Anchored matcher for `raindrop_id:\s*(\d+)` (lines 363, 795, 1103, 1157):
skip whitespace after the key, then require at least one digit. -/
def anchRaindropId (s : Str) : Option Nat :=
  if (str "raindrop_id:").isPrefixOf s then
    let r := (s.drop 12).dropWhile isWs
    let ds := r.takeWhile Char.isDigit
    if ds ≠ [] then some (natOfDigits ds) else none
  else none

def matchRaindropId (s : Str) : Option Nat := scanFirst anchRaindropId s

/-- Captured group of `tags:\n((?:  - .+\n?)*)` (line 819): the maximal run
of `  - x` lines after a `tags:` line; each line needs at least one
non-newline character after the dash, and its trailing newline is consumed
greedily. -/
def takeTagLines : List Str → List Str
  | [] => []
  | l :: ls =>
    if (str "  - ").isPrefixOf l ∧ 4 < l.length then l :: takeTagLines ls
    else []

def tagLinesGroup (s : Str) : Str :=
  let lines := splitLines s
  let taken := takeTagLines lines
  if taken.length < lines.length then (taken.map (· ++ [nlC])).flatten
  else List.intercalate [nlC] taken

def anchTags (s : Str) : Option Str :=
  if (str "tags:\n").isPrefixOf s then some (tagLinesGroup (s.drop 6))
  else none

def matchTags (s : Str) : Option Str := scanFirst anchTags s

/-- Anchored matcher for `## Notes\n+([\s\S]*?)$` (lines 810, 1044): the
literal heading, one or more newlines (greedy), then everything to the end of
the subject (in JS, `$` without the `m` flag matches only at the end). -/
def anchNotes (s : Str) : Option Str :=
  if (str "## Notes").isPrefixOf s then
    let r := s.drop 8
    let w := r.takeWhile (· = nlC)
    if w ≠ [] then some (r.drop w.length) else none
  else none

def matchNotes (s : Str) : Option Str := scanFirst anchNotes s

/-- Anchored matcher for `/^\s*-\s*/` used on each tag line (line 824): the
match exists when the first non-whitespace character is a dash, and consumes
the dash together with the whitespace around it. -/
def stripLeadingDash (l : Str) : Str :=
  let w := l.takeWhile isWs
  match l.drop w.length with
  | c :: r => if c = '-' then r.dropWhile isWs else l
  | [] => l

/-- Model of `new Date(...).toLocaleDateString()` applied to the verbatim
`created` string of a bookmark: an uninterpreted deterministic rendering,
taken to be the identity. -/
def renderLocaleDate (s : Str) : Str := s

structure RaindropSyncSettings where
  resourceFolder : Str
  useCollectionFolders : Bool
  bidirectionalSync : Bool
  testMode : Bool
  testModeLimit : Nat
deriving DecidableEq, Repr

/-- A remote bookmark record.  `collection` holds the `$id` of the embedded
collection reference (`none` models an absent reference, and the call sites
reproduce the JS truthiness test `bookmark.collection?.$id`, under which the
id `0` is falsy).  `created` is kept verbatim as the API string. -/
structure RaindropBookmark where
  rid : Nat
  title : Str
  link : Str
  note : Str
  tags : List Str
  created : Str
  collection : Option Nat
  domain : Str
deriving DecidableEq, Repr

structure RaindropCollection where
  cid : Nat
  title : Str
  count : Nat
  parent : Option Nat
deriving DecidableEq, Repr

/-- A vault file: path, full text content, and storage modification time. -/
structure VFile where
  path : Str
  content : Str
  mtime : Nat
deriving DecidableEq, Repr

/-- The vault is modelled as the list of files under the resource folder, in
traversal order (`getAllFilesInFolder` order). -/
abbrev Vault := List VFile

/-- A file's `extension === "md"` test, modelled on the path. -/
def isMdFile (f : VFile) : Bool := (str ".md").isSuffixOf f.path

def vaultGet (v : Vault) (p : Str) : Option VFile := v.find? (fun f => f.path = p)

def vaultDelete (v : Vault) (p : Str) : Vault := v.filter (fun f => f.path ≠ p)

/-- `vault.modify`: replace the content of the file at `p`, stamping the
write time. -/
def vaultModify (v : Vault) (p : Str) (c : Str) (now : Nat) : Vault :=
  v.map (fun f => if f.path = p then { f with content := c, mtime := now } else f)

/-- `vault.create`: append a fresh file (new files come last in traversal
order). -/
def vaultCreate (v : Vault) (p : Str) (c : Str) (now : Nat) : Vault :=
  v ++ [⟨p, c, now⟩]

/-- The characters that `escapeYamlValue` (src/main.ts:1184) treats as
needing quoting. -/
def yamlSpecialChars : Str :=
  [':', '[', ']', Char.ofNat 123, Char.ofNat 125, '#', '&', '*', '!', '|',
   '>', aposC, quoteC, '%', '@', btickC]

/-- First escaping pass of src/main.ts:1200: double every backslash. -/
def escBackslashes (v : Str) : Str :=
  v.flatMap (fun c => if c = bslashC then [bslashC, bslashC] else [c])

/-- Second escaping pass of src/main.ts:1200: backslash-escape every double
quote. -/
def escQuotes (v : Str) : Str :=
  v.flatMap (fun c => if c = quoteC then [bslashC, c] else [c])

/-- The quoting test of `escapeYamlValue` (src/main.ts:1189-1193). -/
def needsQuotingB (v : Str) : Bool :=
  v.any (yamlSpecialChars.contains ·) ||
  (match v with | c :: _ => c = ' ' | [] => false) ||
  (match v.getLast? with | some c => c = ' ' | none => false) ||
  v.contains nlC

/-- `escapeYamlValue` (src/main.ts:1184-1202). -/
def escapeYamlValue (v : Str) : Str :=
  if v = [] then [quoteC, quoteC]
  else if needsQuotingB v then quoteC :: (escQuotes (escBackslashes v) ++ [quoteC])
  else v

/-- Tag normalisation of `generateNoteContent` (src/main.ts:1212-1223):
lowercase, trim, whitespace runs to hyphens, keep only word characters and
hyphens. -/
def collapseWsAux (repl : Char) (inRun : Bool) : Str → Str
  | [] => []
  | c :: s =>
    if isWs c then
      (if inRun then [] else [repl]) ++ collapseWsAux repl true s
    else c :: collapseWsAux repl false s

def sanitizeTag (t : Str) : Str :=
  (collapseWsAux '-' false (trimStr (t.map Char.toLower))).filter
    (fun c => isWordChar c || c = '-')

def sanitizeTags (tags : List Str) : List Str :=
  (tags.map sanitizeTag).filter (fun t => t ≠ [])

/-- `convertTagToRaindropFormat` (src/main.ts:898-904). -/
def convertTagToRaindropFormat (tag : Str) : Str :=
  List.intercalate (str " ")
    ((splitOnChar '-' tag).map
      (fun w => match w with | [] => [] | c :: r => c.toUpper :: r))

/-- `sanitizeFileName` (src/main.ts:1117-1129).  `now` models `Date.now()`
used for the empty-name fallback. -/
def sanitizeFileName (now : Nat) (name : Str) : Str :=
  if name = [] ∨ trimStr name = [] then str "Untitled-" ++ renderNat now
  else
    let replaced := name.map (fun c =>
      if [bslashC, '/', ':', '*', '?', quoteC, '<', '>', '|'].contains c
      then '-' else c)
    (trimStr (collapseWsAux ' ' false replaced)).take 200

/-- The tag list written into a note: the sanitized remote tags with the
default `raindrop-bookmarks` tag put first when absent
(src/main.ts:1225-1230). -/
def obsidianTags (tags : List Str) : List Str :=
  let ts := sanitizeTags tags
  if ts.contains (str "raindrop-bookmarks") then ts
  else str "raindrop-bookmarks" :: ts

def tagsYamlOf (ts : List Str) : Str :=
  if ts = [] then str "tags: []"
  else str "tags:\n" ++ List.intercalate [nlC] (ts.map (str "  - " ++ ·))

def tagsLineOf (ts : List Str) : Str :=
  List.intercalate (str " ") (ts.map ('#' :: ·))

/-- The frontmatter block written by `generateNoteContent`
(src/main.ts:1249-1260), between the `---` delimiters. -/
def fmBlock (bm : RaindropBookmark) (collectionTitle : Str) (now : Nat) : Str :=
  let title := if bm.title = [] then str "Untitled" else bm.title
  str "title: " ++ escapeYamlValue title ++
  str "\nurl: " ++ escapeYamlValue bm.link ++
  str "\nraindrop_id: " ++ renderNat bm.rid ++
  str "\ncollection: " ++ escapeYamlValue collectionTitle ++
  [nlC] ++ tagsYamlOf (obsidianTags bm.tags) ++
  str "\ncreated: " ++ bm.created ++
  str "\nlast_synced: " ++ renderNat now ++
  str "\ntype: raindrop-bookmark" ++
  str "\ndomain: " ++ escapeYamlValue (if bm.domain = [] then str "Unknown" else bm.domain) ++
  str "\nadded: " ++ renderLocaleDate bm.created

/-- Everything `generateNoteContent` emits before the `## Notes` heading. -/
def noteHeader (bm : RaindropBookmark) (collectionTitle : Str) (now : Nat) : Str :=
  let title := if bm.title = [] then str "Untitled" else bm.title
  str "---\n" ++ fmBlock bm collectionTitle now ++ str "\n---\n\n# " ++
  title ++ str "\n\n**URL:** [" ++
  (if bm.link = [] then str "No URL" else bm.link) ++ str "](" ++
  (if bm.link = [] then str "#" else bm.link) ++ str ")\n**Collection:** " ++
  collectionTitle ++ [nlC] ++
  (if tagsLineOf (obsidianTags bm.tags) ≠ [] then
    str "**Tags:** " ++ tagsLineOf (obsidianTags bm.tags)
   else []) ++
  str "\n\n"

/-- `generateNoteContent` (src/main.ts:1204-1274). -/
def generateNoteContent (bm : RaindropBookmark) (collectionTitle : Str)
    (now : Nat) : Str :=
  noteHeader bm collectionTitle now ++ str "## Notes\n\n" ++ bm.note ++ [nlC]

/-- Generic first-match replacement, as JS `String.replace` with a string
replacement: scan left to right, and at the first position where the anchored
matcher succeeds, splice in the substituted template.  The matcher returns
(matched text, remaining subject after the match, capture groups). -/
def replaceFirstAux (anch : Str → Option (Str × Str × List Str))
    (template : Str) (pre : Str) : Str → Str
  | [] => pre
  | c :: s =>
    match anch (c :: s) with
    | some (m, rest, gs) => pre ++ substTemplate m pre rest gs template ++ rest
    | none => replaceFirstAux anch template (pre ++ [c]) s

def replaceFirst (anch : Str → Option (Str × Str × List Str))
    (template : Str) (s : Str) : Str :=
  replaceFirstAux anch template [] s

/-- Span-producing matcher for `## Notes\n+([\s\S]*?)$` used by the
`noteContent.replace` merge (src/main.ts:1049-1052): the match always runs to
the end of the subject. -/
def anchNotesSpan (s : Str) : Option (Str × Str × List Str) :=
  if (str "## Notes").isPrefixOf s then
    let r := s.drop 8
    let w := r.takeWhile (· = nlC)
    if w ≠ [] then some (s, [], [r.drop w.length]) else none
  else none

/-- The local-notes-preserving merge of src/main.ts:1049-1052:
`noteContent.replace(notes pattern, "## Notes\n\n" + localNotes)`. -/
def replaceNotesSection (localNotes : Str) (noteContent : Str) : Str :=
  replaceFirst anchNotesSpan (str "## Notes\n\n" ++ localNotes) noteContent

/-- Span-producing matcher for `last_synced:\s*.+` used by the reverse-pass
rewrite (src/main.ts:833-836). -/
def anchLastSyncedSpan (s : Str) : Option (Str × Str × List Str) :=
  (anchValueAfter (str "last_synced:") s).map
    (fun g => (s.take g.2, s.drop g.2, []))

/-- The reverse-pass rewrite `content.replace(/last_synced pattern/, fresh)`
(src/main.ts:833-836). -/
def replaceLastSynced (now : Nat) (content : Str) : Str :=
  replaceFirst anchLastSyncedSpan (str "last_synced: " ++ renderNat now) content

def collectionsGet (cols : List RaindropCollection) (i : Nat) :
    Option RaindropCollection :=
  cols.find? (fun c => c.cid = i)

/-- The parent-walking loop of `getCollectionPath` (src/main.ts:906-927),
with explicit fuel: one unit per loop iteration.  The source loop has no
cycle guard, so the model returns `none` when the fuel runs out; with fuel
`cols.length + 1` that can only happen when a collection id repeats on the
parent chain, which is exactly when the source loop never terminates. -/
def getCollectionPathAux (cols : List RaindropCollection) (now : Nat) :
    Nat → Option Nat → List Str → Option (List Str)
  | _, none, acc => some acc
  | 0, some _, _ => none
  | fuel + 1, some i, acc =>
    match collectionsGet cols i with
    | none => some acc
    | some c =>
      getCollectionPathAux cols now fuel c.parent
        (sanitizeFileName now c.title :: acc)

def getCollectionPath (cols : List RaindropCollection) (now : Nat)
    (collectionId : Nat) : Option Str :=
  (getCollectionPathAux cols now (cols.length + 1) (some collectionId) []).map
    (List.intercalate (str "/"))

/-- Termination of the source's `getCollectionPath` loop on a given id: some
finite fuel makes the fuelled model finish. -/
def collectionPathTerminates (cols : List RaindropCollection)
    (collectionId : Nat) : Prop :=
  ∃ fuel, (getCollectionPathAux cols 0 fuel (some collectionId) []).isSome

/-- `ensureUniqueFileName` (src/main.ts:1131-1182): candidate `base`,
`base-2`, `base-3`, ... until a free name or an `raindrop_id` match is found;
after `maxAttempts = 1000` loop iterations fall back to `base-<id>`.  The
loop body runs for counter values 1..999. -/
def ensureUniqueAux (vault : Vault) (folderPath base : Str) (rid : Nat) :
    Nat → Nat → Str
  | 0, _ => base ++ '-' :: renderNat rid
  | fuel + 1, counter =>
    let fileName := if counter = 1 then base else base ++ '-' :: renderNat counter
    let filePath := folderPath ++ '/' :: (fileName ++ str ".md")
    match vaultGet vault filePath with
    | none => fileName
    | some f =>
      match extractFrontmatter f.content with
      | some (fm, _) =>
        match matchRaindropId fm with
        | some rid' =>
          if rid' = rid then fileName
          else ensureUniqueAux vault folderPath base rid fuel (counter + 1)
        | none => ensureUniqueAux vault folderPath base rid fuel (counter + 1)
      | none => ensureUniqueAux vault folderPath base rid fuel (counter + 1)

def ensureUniqueFileName (vault : Vault) (folderPath base : Str)
    (rid : Nat) : Str :=
  ensureUniqueAux vault folderPath base rid 999 1

/-- `findFileByRaindropId` (src/main.ts:1082-1115): first markdown file in
traversal order whose frontmatter carries the id. -/
def findFileByRaindropId (vault : Vault) (rid : Nat) : Option VFile :=
  vault.find? (fun f =>
    isMdFile f &&
    match extractFrontmatter f.content with
    | some (fm, _) => matchRaindropId fm == some rid
    | none => false)

inductive SyncOutcome where
  | created
  | updated
  | skipped
deriving DecidableEq, Repr

/-- Collection title resolution of src/main.ts:950-959, including the JS
truthiness tests (`$id` equal to 0 and an empty title are falsy). -/
def resolveCollectionTitle (cols : List RaindropCollection)
    (bm : RaindropBookmark) : Str :=
  match bm.collection with
  | some i =>
    if i ≠ 0 then
      match collectionsGet cols i with
      | some c => if c.title ≠ [] then c.title else str "Unsorted"
      | none => str "Unsorted"
    else str "Unsorted"
  | none => str "Unsorted"

/-- Folder resolution of src/main.ts:961-977; `none` when the collection
path walk does not terminate. -/
def resolveFolderPath (s : RaindropSyncSettings) (cols : List RaindropCollection)
    (now : Nat) (bm : RaindropBookmark) (collectionTitle : Str) : Option Str :=
  if s.useCollectionFolders then
    if collectionTitle ≠ [] ∧ collectionTitle ≠ str "Unsorted" then
      (getCollectionPath cols now ((bm.collection).getD 0)).map
        (fun cp => s.resourceFolder ++ '/' :: cp)
    else some (s.resourceFolder ++ str "/Unsorted")
  else some s.resourceFolder

/-- The `title:` escaping heuristic `/title:.*:/.test(frontmatter)`
(src/main.ts:1025-1028). -/
def anchTitleColon (s : Str) : Option Unit :=
  if (str "title:").isPrefixOf s then
    if ((s.drop 6).takeWhile (· ≠ nlC)).contains ':' then some () else none
  else none

def titleColonTest (fm : Str) : Bool := (scanFirst anchTitleColon fm).isSome

/-- `fileModified > lastSynced` guard of src/main.ts:1032-1039: true only
when the frontmatter has a `last_synced` value that parses and is strictly
older than the modification time (a JS Invalid Date compares false). -/
def localEditGuard (fm : Str) (mtime : Nat) : Bool :=
  match matchLastSynced fm with
  | some v =>
    match parseTimestamp v with
    | some ls => mtime > ls
    | none => false
  | none => false

/-- Steps 1021-1074 of `createOrUpdateNote` once a file exists at the target
path: local-edit preservation, the escaping fix, or the plain byte-compare
update. -/
def updateExistingNote (vault1 : Vault) (filePath noteContent : Str)
    (existing : VFile) (now : Nat) : Vault × SyncOutcome :=
  let currentContent := existing.content
  let overwrite : Bool :=
    match extractFrontmatter currentContent with
    | some (fm, _) =>
      decide (¬ sContains fm (str "title: \"")) && titleColonTest fm
    | none => false
  match extractFrontmatter currentContent with
  | some (fm, _) =>
    if localEditGuard fm existing.mtime then
      let localNotes := ((matchNotes currentContent).map trimStr).getD []
      let newContent := replaceNotesSection localNotes noteContent
      (vaultModify vault1 filePath newContent now, .updated)
    else if overwrite then
      (vaultModify vault1 filePath noteContent now, .updated)
    else if currentContent ≠ noteContent then
      (vaultModify vault1 filePath noteContent now, .updated)
    else (vault1, .skipped)
  | none =>
    if overwrite then (vaultModify vault1 filePath noteContent now, .updated)
    else if currentContent ≠ noteContent then
      (vaultModify vault1 filePath noteContent now, .updated)
    else (vault1, .skipped)

/-- `createOrUpdateNote` (src/main.ts:945-1080).  Returns `none` when the
collection-path loop of the source would not terminate. -/
def createOrUpdateNote (s : RaindropSyncSettings)
    (cols : List RaindropCollection) (now : Nat) (vault : Vault)
    (bm : RaindropBookmark) : Option (Vault × SyncOutcome) :=
  let collectionTitle := resolveCollectionTitle cols bm
  match resolveFolderPath s cols now bm collectionTitle with
  | none => none
  | some folderPath =>
    let baseFileName := sanitizeFileName now bm.title
    let fileName := ensureUniqueFileName vault folderPath baseFileName bm.rid
    let filePath := folderPath ++ '/' :: (fileName ++ str ".md")
    let vault1 :=
      match findFileByRaindropId vault bm.rid with
      | some f => if f.path ≠ filePath then vaultDelete vault f.path else vault
      | none => vault
    let noteContent := generateNoteContent bm collectionTitle now
    match vaultGet vault1 filePath with
    | some existing =>
      some (updateExistingNote vault1 filePath noteContent existing now)
    | none => some (vaultCreate vault1 filePath noteContent now, .created)

/-- Transport response for one HTTP request: `none` models a thrown network
error, `some ...` a response with its HTTP status. -/
structure BookmarksPage where
  status : Nat
  items : List RaindropBookmark
  count : Nat
deriving DecidableEq, Repr

/-- Body of the `try` block of `fetchCollections` (src/main.ts:618-652): a
network error or a non-200 status throws, otherwise the items are
returned. -/
def fetchCollectionsInner (resp : Option (Nat × List RaindropCollection)) :
    Except Str (List RaindropCollection) :=
  match resp with
  | none => Except.error (str "network error")
  | some (status, items) =>
    if status ≠ 200 then Except.error (str "Failed to fetch collections")
    else Except.ok items

/-- `fetchCollections` (src/main.ts:618-657), including its `catch` clause,
which swallows the error and returns an empty array. -/
def fetchCollections (resp : Option (Nat × List RaindropCollection)) :
    List RaindropCollection :=
  match fetchCollectionsInner resp with
  | Except.ok items => items
  | Except.error _ => []

/-- What the caller `syncBookmarks` observes from the collections fetch: the
call never throws, so the caller always receives an `ok` value. -/
def collectionsFetchObserved (resp : Option (Nat × List RaindropCollection)) :
    Except Str (List RaindropCollection) :=
  Except.ok (fetchCollections resp)

def perPage : Nat := 50

/-- The pagination loop of `fetchAllBookmarks` (src/main.ts:659-750), driven
by the list of successive page responses.  The accumulated count of issued
requests is returned alongside the items; a transport failure is re-thrown
(`Except.error`), which aborts the whole sync.  An exhausted response list
while the loop still wants a page is modelled as an error. -/
def fetchAllBookmarksAux (s : RaindropSyncSettings) :
    List (Option BookmarksPage) → List RaindropBookmark → Option Nat → Nat →
    Except Str (List RaindropBookmark × Nat)
  | [], _, _, _ => Except.error (str "no further response")
  | none :: _, _, _, _ => Except.error (str "network error")
  | some page :: rest, acc, tc, n =>
    if page.status ≠ 200 then Except.error (str "API request failed")
    else
      let total := tc.getD page.count
      let acc' := acc ++ page.items
      if s.testMode ∧ s.testModeLimit ≤ acc'.length then
        Except.ok (acc'.take s.testModeLimit, n + 1)
      else if page.items.length = perPage ∧ acc'.length < total then
        fetchAllBookmarksAux s rest acc' (some total) (n + 1)
      else Except.ok (acc', n + 1)

def fetchAllBookmarks (s : RaindropSyncSettings)
    (pages : List (Option BookmarksPage)) :
    Except Str (List RaindropBookmark × Nat) :=
  fetchAllBookmarksAux s pages [] none 0

/-- Counters of the forward pass of `syncBookmarks` (src/main.ts:529-562). -/
structure ForwardPassState where
  createdCount : Nat
  updatedCount : Nat
  skippedCount : Nat
  failedCount : Nat
  processedCount : Nat
  failedBookmarks : List (Nat × Str × Str)
deriving DecidableEq, Repr

def initialPassState : ForwardPassState := ⟨0, 0, 0, 0, 0, []⟩

/-- The per-record loop of the forward pass (src/main.ts:536-562).  The body
of the `try` block — `createOrUpdateNote` together with the vault and network
operations it performs — is abstracted as a fallible step `process`; a thrown
exception is an `Except.error` carrying its message. -/
def syncBookmarksLoop (process : RaindropBookmark → Except Str SyncOutcome) :
    List RaindropBookmark → ForwardPassState → ForwardPassState
  | [], st => st
  | bm :: rest, st =>
    let st1 := { st with processedCount := st.processedCount + 1 }
    match process bm with
    | Except.ok SyncOutcome.created =>
      syncBookmarksLoop process rest
        { st1 with createdCount := st1.createdCount + 1 }
    | Except.ok SyncOutcome.updated =>
      syncBookmarksLoop process rest
        { st1 with updatedCount := st1.updatedCount + 1 }
    | Except.ok SyncOutcome.skipped =>
      syncBookmarksLoop process rest
        { st1 with skippedCount := st1.skippedCount + 1 }
    | Except.error e =>
      syncBookmarksLoop process rest
        { st1 with
          failedCount := st1.failedCount + 1,
          failedBookmarks := st1.failedBookmarks ++
            [(bm.rid, (if bm.title = [] then str "Untitled" else bm.title), e)] }

def runForwardPass (process : RaindropBookmark → Except Str SyncOutcome)
    (bms : List RaindropBookmark) : ForwardPassState :=
  syncBookmarksLoop process bms initialPassState

/-- Tag extraction of the reverse pass (src/main.ts:819-827). -/
def parseTagsFromFm (fm : Str) : List Str :=
  match matchTags fm with
  | some group =>
    (((splitLines group).map (fun l => trimStr (stripLeadingDash l))).filter
      (fun t => t ≠ [])).map convertTagToRaindropFormat
  | none => []

/-- Outcome of the reverse pass on one file.  `pushed` carries the update
request payload and the content the file is rewritten with when the push
succeeds (on a push failure the `catch` skips the rewrite). -/
inductive ReverseAction where
  | skipped : ReverseAction
  | pushed (rid : Nat) (notes : Str) (tags : List Str) (newContent : Str) :
      ReverseAction
deriving DecidableEq, Repr

/-- One iteration of the `syncNotesToRaindrop` loop (src/main.ts:769-847)
for a single file. -/
def syncNoteStep (f : VFile) (now : Nat) : ReverseAction :=
  if ¬ isMdFile f then ReverseAction.skipped
  else
    match extractFrontmatter f.content with
    | none => ReverseAction.skipped
    | some (fm, _) =>
      match matchRaindropId fm with
      | none => ReverseAction.skipped
      | some rid =>
        let lastSynced : Option Nat :=
          match matchLastSynced fm with
          | some v => parseTimestamp v
          | none => some 0
        if (match lastSynced with
            | some ls => decide (f.mtime ≤ ls)
            | none => false) then ReverseAction.skipped
        else
          match matchNotes f.content with
          | none => ReverseAction.skipped
          | some g =>
            let notes := trimStr g
            if notes = [] then ReverseAction.skipped
            else
              ReverseAction.pushed rid notes (parseTagsFromFm fm)
                (replaceLastSynced now f.content)

/-- The deletion test of `undoSync` (src/main.ts:255-277): a markdown file
whose frontmatter block contains the `type: raindrop-bookmark` marker. -/
def undoDeletesFile (f : VFile) : Bool :=
  isMdFile f &&
  match extractFrontmatter f.content with
  | some (fm, _) => sContains fm (str "type: raindrop-bookmark")
  | none => false

/-- The file loop of `undoSync` (src/main.ts:252-282): iterate over the
snapshot of the tree, deleting each matching file and counting it. -/
def undoSyncAux : List VFile → Vault × Nat → Vault × Nat
  | [], st => st
  | f :: fs, (v, n) =>
    if undoDeletesFile f then undoSyncAux fs (vaultDelete v f.path, n + 1)
    else undoSyncAux fs (v, n)

def undoSync (vault : Vault) : Vault × Nat := undoSyncAux vault (vault, 0)

/-- Backslash-unescaping of a quoted metadata value. -/
def unescapeYaml : Str → Str
  | [] => []
  | [c] => [c]
  | c :: d :: rest =>
    if c = bslashC then d :: unescapeYaml rest
    else c :: unescapeYaml (d :: rest)

/-- Modelled from the spec: the repository has no reader for the `title`,
`url` and `collection` metadata fields (the reverse pass reads only
`raindrop_id`, `last_synced`, `tags` and the notes body), so, following the
specification's codec section, a quoted value is recognised by its
surrounding double quotes and its backslash escapes are undone; an unquoted
value is taken verbatim. -/
def unquoteYamlValue (v : Str) : Str :=
  if 2 ≤ v.length ∧ v.head? = some quoteC ∧ v.getLast? = some quoteC then
    unescapeYaml ((v.drop 1).dropLast)
  else v

/-- Modelled from the spec: decoding of one `key: value` metadata line from
a document, the missing counterpart of `generateNoteContent` for the fields
the source never reads back (title, url, collection). -/
def decodeYamlField (key : Str) (content : Str) : Option Str :=
  match extractFrontmatter content with
  | none => none
  | some (fm, _) =>
    match (splitLines fm).find? (fun l => (key ++ str ": ").isPrefixOf l) with
    | none => none
    | some l => some (unquoteYamlValue (l.drop (key.length + 2)))

/-- The id a document decodes to, by the source's own reader
(src/main.ts:795,1103). -/
def decodeRaindropId (content : Str) : Option Nat :=
  match extractFrontmatter content with
  | none => none
  | some (fm, _) => matchRaindropId fm

/-- The tag list a document decodes to, by the source's own reader
(src/main.ts:819-827). -/
def decodeTagList (content : Str) : List Str :=
  match extractFrontmatter content with
  | none => []
  | some (fm, _) => parseTagsFromFm fm

/-- The annotation body of a document, as both passes extract it
(src/main.ts:810-813, 1043-1046): the notes-pattern group, trimmed. -/
def annotationBody (content : Str) : Option Str :=
  (matchNotes content).map trimStr

/-- The part of a generated document after the closing frontmatter delimiter
(it does not depend on the sync time). -/
def noteAfterFm (bm : RaindropBookmark) (collectionTitle : Str) : Str :=
  let title := if bm.title = [] then str "Untitled" else bm.title
  str "\n\n# " ++ title ++ str "\n\n**URL:** [" ++
  (if bm.link = [] then str "No URL" else bm.link) ++ str "](" ++
  (if bm.link = [] then str "#" else bm.link) ++ str ")\n**Collection:** " ++
  collectionTitle ++ [nlC] ++
  (if tagsLineOf (obsidianTags bm.tags) ≠ [] then
    str "**Tags:** " ++ tagsLineOf (obsidianTags bm.tags)
   else []) ++
  str "\n\n" ++ str "## Notes\n\n" ++ bm.note ++ [nlC]

/-- The generated frontmatter up to and including `last_synced: `. -/
def fmBeforeTime (bm : RaindropBookmark) (collectionTitle : Str) : Str :=
  let title := if bm.title = [] then str "Untitled" else bm.title
  str "title: " ++ escapeYamlValue title ++
  str "\nurl: " ++ escapeYamlValue bm.link ++
  str "\nraindrop_id: " ++ renderNat bm.rid ++
  str "\ncollection: " ++ escapeYamlValue collectionTitle ++
  [nlC] ++ tagsYamlOf (obsidianTags bm.tags) ++
  str "\ncreated: " ++ bm.created ++
  str "\nlast_synced: "

/-- The generated frontmatter after the `last_synced` value. -/
def fmAfterTime (bm : RaindropBookmark) : Str :=
  str "\ntype: raindrop-bookmark" ++
  str "\ndomain: " ++ escapeYamlValue (if bm.domain = [] then str "Unknown" else bm.domain) ++
  str "\nadded: " ++ renderLocaleDate bm.created

/-- Everything of a generated document before the sync timestamp. -/
def genTimePre (bm : RaindropBookmark) (collectionTitle : Str) : Str :=
  str "---\n" ++ fmBeforeTime bm collectionTitle

/-- Everything of a generated document after the sync timestamp. -/
def genTimePost (bm : RaindropBookmark) (collectionTitle : Str) : Str :=
  fmAfterTime bm ++ str "\n---" ++ noteAfterFm bm collectionTitle

/-- Survival predicate for the `undoSync` fold: no file of the processed
snapshot both matches the deletion test and shares this file's path. -/
def keptBy (fs : List VFile) (g : VFile) : Bool :=
  fs.all (fun f => !(undoDeletesFile f && decide (g.path = f.path)))

def settingsPlain : RaindropSyncSettings := ⟨str "Resources", false, true, false, 5⟩

def dummyBookmark : RaindropBookmark := ⟨0, [], [], [], [], [], none, []⟩

def pageOf (k c : Nat) : Option BookmarksPage :=
  some ⟨200, List.replicate k dummyBookmark, c⟩

/-- One-collection map whose collection is its own parent. -/
def cycleCollections : List RaindropCollection := [⟨1, str "A", 0, some 1⟩]

def bmPlain : RaindropBookmark :=
  ⟨7, str "Note", str "u", str "fresh", [], str "5", none, str "d"⟩

/-- The remote record of the C1 scenario (fresh title `Note`). -/
def bmC1 : RaindropBookmark := bmPlain

/-- The record the existing document was generated from: a different title
that sanitizes to the same file name, and the annotation text is the JS
substitution pattern for the whole match. -/
def oldBmC1 : RaindropBookmark :=
  { bmPlain with title := str "Note ", note := str "$&" }

def oldContentC1 : Str := generateNoteContent oldBmC1 (str "Unsorted") 3

def vaultC1 : Vault := [⟨str "Resources/Note.md", oldContentC1, 5⟩]

def mergedC1 : Str :=
  replaceNotesSection (str "$&") (generateNoteContent bmC1 (str "Unsorted") 9)

/-- C7 counterexample file: the frontmatter has no `last_synced` field, and
the annotation body contains a line that matches the last_synced pattern. -/
def fileC7 : VFile :=
  ⟨str "Resources/a.md",
   str "---\nraindrop_id: 7\n---\n\n# T\n\n## Notes\n\nlast_synced: what\n", 5⟩

/-- C9 counterexample record: one remote tag `AI`. -/
def bmC9 : RaindropBookmark :=
  ⟨7, str "A: B", str "http://x.com/a", [], [str "AI"], str "5", none, str "x.com"⟩

/-- C10 witness vault: one qualifying bookmark file and three files that must
survive (wrong extension, no frontmatter, no marker). -/
def vaultC10 : Vault :=
  [⟨str "Resources/a.md", str "---\ntype: raindrop-bookmark\n---\nx", 0⟩,
   ⟨str "Resources/b.txt", str "---\ntype: raindrop-bookmark\n---\nx", 0⟩,
   ⟨str "Resources/c.md", str "no frontmatter", 0⟩,
   ⟨str "Resources/d.md", str "---\nother: 1\n---\nx", 0⟩]

/-- C2 scenario: the vault after the first pass materialised `bmPlain` at
time 3. -/
def vaultC2 : Vault :=
  [⟨str "Resources/Note.md", generateNoteContent bmPlain (str "Unsorted") 3, 3⟩]

/-- C6 scenario: the stale copy of `bmPlain` lives at the path of its old
title. -/
def staleC6 : VFile :=
  ⟨str "Resources/Old Title.md",
   generateNoteContent { bmPlain with title := str "Old Title" } (str "Unsorted") 3, 3⟩

/-- The title actually written by `generateNoteContent` (empty titles fall
back to `Untitled`). -/
def yamlTitleOf (bm : RaindropBookmark) : Str :=
  if bm.title = [] then str "Untitled" else bm.title

/-- The generated frontmatter before the `raindrop_id` line. -/
def fmIdPre (bm : RaindropBookmark) : Str :=
  str "title: " ++ escapeYamlValue (yamlTitleOf bm) ++
  str "\nurl: " ++ escapeYamlValue bm.link ++ [nlC]

/-- The generated frontmatter after the `raindrop_id` value's newline. -/
def fmAfterId (bm : RaindropBookmark) (collectionTitle : Str) (now : Nat) : Str :=
  str "collection: " ++ escapeYamlValue collectionTitle ++ [nlC] ++
  tagsYamlOf (obsidianTags bm.tags) ++
  str "\ncreated: " ++ bm.created ++
  str "\nlast_synced: " ++ renderNat now ++ fmAfterTime bm

/-- The generated frontmatter before the `tags:` block. -/
def fmTagsPre (bm : RaindropBookmark) (collectionTitle : Str) : Str :=
  fmIdPre bm ++ str "raindrop_id: " ++ renderNat bm.rid ++
  str "\ncollection: " ++ escapeYamlValue collectionTitle ++ [nlC]

/-- The generated frontmatter after the tag lines. -/
def fmTagsTail (bm : RaindropBookmark) (now : Nat) : Str :=
  str "created: " ++ bm.created ++
  str "\nlast_synced: " ++ renderNat now ++ fmAfterTime bm

/-- The record the C1 witness document was generated from: old title and a
plain kept annotation. -/
def keptBmC1 : RaindropBookmark :=
  { bmPlain with title := str "Note ", note := str "kept-text" }

/-- C1 witness file: the time-3 document of `keptBmC1`, edited at time 5. -/
def fileC1 : VFile :=
  ⟨str "Resources/Note.md", generateNoteContent keptBmC1 (str "Unsorted") 3, 5⟩

deriving instance DecidableEq for Except

theorem digitVal_digitChar (n : Nat) (h : n < 10) :
    digitVal (digitChar n) = n := by
  interval_cases n <;> decide

theorem digitChar_isDigit (n : Nat) (h : n < 10) :
    (digitChar n).isDigit = true := by
  interval_cases n <;> decide

theorem renderNatFuel_foldl : ∀ f n, n < f → ∀ a,
    (renderNatFuel f n).foldl (fun x c => 10 * x + digitVal c) a =
      a * 10 ^ (renderNatFuel f n).length + n := by
  intro f
  induction f with
  | zero => intro n hn; omega
  | succ k ih =>
    intro n hn a
    by_cases h10 : n < 10
    · simp [renderNatFuel, h10, digitVal_digitChar n h10]
      ring
    · have hdiv : n / 10 < k := by omega
      have hmod : n % 10 < 10 := Nat.mod_lt _ (by omega)
      simp only [renderNatFuel, if_neg h10, List.foldl_append, List.length_append,
        List.foldl_cons, List.foldl_nil, List.length_cons, List.length_nil]
      rw [ih (n / 10) hdiv a, digitVal_digitChar _ hmod]
      have : a * 10 ^ ((renderNatFuel k (n / 10)).length + (0 + 1)) =
          (a * 10 ^ (renderNatFuel k (n / 10)).length) * 10 := by ring
      rw [this]
      omega

theorem renderNatFuel_ne_nil : ∀ f n, n < f → renderNatFuel f n ≠ [] := by
  intro f
  induction f with
  | zero => intro n hn; omega
  | succ k ih =>
    intro n hn
    by_cases h10 : n < 10
    · simp [renderNatFuel, h10]
    · simp [renderNatFuel, h10]

theorem renderNatFuel_digits : ∀ f n, n < f → ∀ c ∈ renderNatFuel f n,
    c.isDigit = true := by
  intro f
  induction f with
  | zero => intro n hn; omega
  | succ k ih =>
    intro n hn c hc
    by_cases h10 : n < 10
    · simp [renderNatFuel, h10] at hc
      exact hc ▸ digitChar_isDigit n h10
    · simp only [renderNatFuel, if_neg h10, List.mem_append, List.mem_singleton] at hc
      rcases hc with hc | hc
      · exact ih (n / 10) (by omega) c hc
      · exact hc ▸ digitChar_isDigit _ (Nat.mod_lt _ (by omega))

theorem natOfDigits_renderNat (n : Nat) : natOfDigits (renderNat n) = n := by
  have := renderNatFuel_foldl (n + 1) n (Nat.lt_succ_self n) 0
  simpa [natOfDigits, renderNat] using this

theorem renderNat_ne_nil (n : Nat) : renderNat n ≠ [] :=
  renderNatFuel_ne_nil (n + 1) n (Nat.lt_succ_self n)

theorem renderNat_digits (n : Nat) : ∀ c ∈ renderNat n, c.isDigit = true :=
  renderNatFuel_digits (n + 1) n (Nat.lt_succ_self n)

theorem parseTimestamp_renderNat (n : Nat) :
    parseTimestamp (renderNat n) = some n := by
  have h1 := renderNat_ne_nil n
  have h2 := renderNat_digits n
  simp [parseTimestamp, h1, natOfDigits_renderNat, List.all_eq_true]
  intro c hc
  exact h2 c hc

theorem renderNat_injective {m n : Nat} (h : renderNat m = renderNat n) :
    m = n := by
  have := natOfDigits_renderNat m
  rw [h, natOfDigits_renderNat] at this
  omega

theorem getCollectionPathAux_cycle_step (n : Nat) (acc : List Str) :
    getCollectionPathAux cycleCollections 0 (n + 1) (some 1) acc =
    getCollectionPathAux cycleCollections 0 n (some 1)
      (sanitizeFileName 0 (str "A") :: acc) := rfl

theorem cycle_no_termination :
    ∀ n acc, getCollectionPathAux cycleCollections 0 n (some 1) acc = none := by
  intro n
  induction n with
  | zero => intro acc; rfl
  | succ k ih =>
    intro acc
    rw [getCollectionPathAux_cycle_step]
    exact ih _

theorem pathAux_terminates (cols : List RaindropCollection)
    (h : ∀ c ∈ cols, c.parent.all (fun j => decide (j < c.cid)) = true) :
    ∀ i acc, ∃ fuel, (getCollectionPathAux cols 0 fuel (some i) acc).isSome := by
  intro i
  induction i using Nat.strong_induction_on with
  | _ i ih =>
    intro acc
    cases hc : collectionsGet cols i with
    | none => exact ⟨1, by simp [getCollectionPathAux, hc]⟩
    | some c =>
      have hmem : c ∈ cols := List.mem_of_find?_eq_some hc
      have hcid : c.cid = i := by
        have := List.find?_some hc
        simpa using this
      cases hp : c.parent with
      | none => exact ⟨1, by simp [getCollectionPathAux, hc, hp]⟩
      | some j =>
        have hj : j < i := by
          have := h c hmem
          rw [hp] at this
          simp at this
          omega
        obtain ⟨fuel, hf⟩ := ih j hj (sanitizeFileName 0 c.title :: acc)
        exact ⟨fuel + 1, by simpa [getCollectionPathAux, hc, hp] using hf⟩

/-- Claim C3: the claim asserts that collection path resolution terminates on
every collection map, including cyclic ones, by stopping at a revisited node.
Counterexample: on the map whose single collection is its own parent, the
`getCollectionPath` loop of src/main.ts:906-927 never finishes — no amount of
fuel completes the fuelled model — because the source walk has no visited-set
guard. -/
theorem claimC3_counterexample : ¬ collectionPathTerminates cycleCollections 1 := by
  rintro ⟨fuel, h⟩
  rw [cycle_no_termination] at h
  simp at h

/-- Claim C3 (amended): collection path resolution terminates whenever every
collection's parent id is strictly smaller than its own id (in particular on
every parent-decreasing acyclic map); on a cyclic parent chain the loop does
not terminate, since the source has no revisited-node guard. -/
theorem claimC3_amended (cols : List RaindropCollection)
    (h : ∀ c ∈ cols, c.parent.all (fun j => decide (j < c.cid)) = true)
    (i : Nat) : collectionPathTerminates cols i :=
  pathAux_terminates cols h i []

/-- Witness for C3: a two-level parent chain with decreasing ids
terminates. -/
theorem claimC3_witness :
    collectionPathTerminates
      [⟨2, str "A", 0, some 1⟩, ⟨1, str "B", 0, none⟩] 2 :=
  claimC3_amended _ (by decide) 2

/-- Claim C4: the claim asserts a transport failure during the collections
fetch is fatal and aborts the run.  Counterexample: on a 500 response the
`catch` of `fetchCollections` (src/main.ts:653-656) swallows the thrown error
and returns an empty array, so the caller observes a successful empty
collection set and the run continues. -/
theorem claimC4_counterexample :
    fetchCollectionsInner (some (500, [⟨1, str "A", 3, none⟩])) =
      Except.error (str "Failed to fetch collections") ∧
    collectionsFetchObserved (some (500, [⟨1, str "A", 3, none⟩])) =
      Except.ok [] := by decide

/-- Claim C4 (amended): a transport failure (non-success status or network
error) during the collections fetch is caught inside `fetchCollections`,
which returns the empty collection set, and the sync run continues with it;
by contrast a transport failure during any page of the records fetch is
re-thrown and aborts the run. -/
theorem claimC4_amended :
    (∀ status items, status ≠ 200 →
      fetchCollections (some (status, items)) = [] ∧
      collectionsFetchObserved (some (status, items)) = Except.ok []) ∧
    (fetchCollections none = [] ∧
      collectionsFetchObserved none = Except.ok []) ∧
    (∀ s rest acc tc n,
      fetchAllBookmarksAux s (none :: rest) acc tc n =
        Except.error (str "network error")) ∧
    (∀ s status items cnt rest acc tc n, status ≠ 200 →
      fetchAllBookmarksAux s (some ⟨status, items, cnt⟩ :: rest) acc tc n =
        Except.error (str "API request failed")) := by
  refine ⟨?_, ⟨rfl, rfl⟩, ?_, ?_⟩
  · intro status items hs
    constructor
    · simp [fetchCollections, fetchCollectionsInner, hs]
    · simp [collectionsFetchObserved, fetchCollections, fetchCollectionsInner, hs]
  · intro s rest acc tc n
    rfl
  · intro s status items cnt rest acc tc n hs
    simp [fetchAllBookmarksAux, hs]

/-- Witness for C4: both failure shapes at concrete inputs. -/
theorem claimC4_witness :
    fetchCollections (some (500, [])) = [] ∧
    fetchAllBookmarksAux settingsPlain (some ⟨404, [], 0⟩ :: []) [] none 0 =
      Except.error (str "API request failed") :=
  ⟨(claimC4_amended.1 500 [] (by decide)).1,
   claimC4_amended.2.2.2 settingsPlain 404 [] 0 [] [] none 0 (by decide)⟩

/-- Claim C5: when test mode is off, after every successful page the
paginated records fetch requests a further page exactly when that page was
full-sized (50 items) and the running total is still below the
server-reported total; with a reported total of 127 it issues exactly 3
requests, both when the last page is short (50+50+27) and in the boundary
case where the final page is exactly full (50+50+50). -/
theorem claimC5_pagination :
    (∀ s rest acc tc n page, s.testMode = false → page.status = 200 →
      fetchAllBookmarksAux s (some page :: rest) acc tc n =
        (if page.items.length = perPage ∧
            (acc ++ page.items).length < tc.getD page.count then
          fetchAllBookmarksAux s rest (acc ++ page.items)
            (some (tc.getD page.count)) (n + 1)
        else Except.ok (acc ++ page.items, n + 1))) ∧
    (fetchAllBookmarks settingsPlain
        [pageOf 50 127, pageOf 50 127, pageOf 27 127]).map
      (fun p => (p.1.length, p.2)) = Except.ok (127, 3) ∧
    (fetchAllBookmarks settingsPlain
        [pageOf 50 127, pageOf 50 127, pageOf 50 127]).map
      (fun p => (p.1.length, p.2)) = Except.ok (150, 3) := by
  refine ⟨?_, by decide, by decide⟩
  intro s rest acc tc n page hm hs
  simp [fetchAllBookmarksAux, hs, hm]

/-- Witness for C5: the step characterization applied at a concrete page. -/
theorem claimC5_witness :
    fetchAllBookmarksAux settingsPlain [some ⟨200, [], 7⟩] [] none 0 =
      (if ([] ++ ([] : List RaindropBookmark)).length = perPage ∧
          (([] : List RaindropBookmark) ++ []).length < (none : Option Nat).getD 7 then
        fetchAllBookmarksAux settingsPlain [] ([] ++ [])
          (some ((none : Option Nat).getD 7)) 1
      else Except.ok (([] : List RaindropBookmark) ++ [], 1)) := by
  have h := claimC5_pagination.1 settingsPlain [] [] none 0 ⟨200, [], 7⟩ rfl rfl
  simpa using h

theorem syncLoop_spec (process : RaindropBookmark → Except Str SyncOutcome) :
    ∀ bms st,
      (syncBookmarksLoop process bms st).processedCount =
        st.processedCount + bms.length ∧
      (syncBookmarksLoop process bms st).createdCount +
        (syncBookmarksLoop process bms st).updatedCount +
        (syncBookmarksLoop process bms st).skippedCount +
        (syncBookmarksLoop process bms st).failedCount =
        st.createdCount + st.updatedCount + st.skippedCount + st.failedCount +
          bms.length ∧
      (syncBookmarksLoop process bms st).failedBookmarks =
        st.failedBookmarks ++ bms.filterMap (fun bm =>
          match process bm with
          | Except.error e =>
            some (bm.rid, (if bm.title = [] then str "Untitled" else bm.title), e)
          | Except.ok _ => none) ∧
      (syncBookmarksLoop process bms st).failedCount =
        st.failedCount + (bms.filterMap (fun bm =>
          match process bm with
          | Except.error e =>
            some (bm.rid, (if bm.title = [] then str "Untitled" else bm.title), e)
          | Except.ok _ => none)).length := by
  intro bms
  induction bms with
  | nil => intro st; simp [syncBookmarksLoop]
  | cons bm rest ih =>
    intro st
    cases hp : process bm with
    | ok r =>
      cases r with
      | created =>
        obtain ⟨H1, H2, H3, H4⟩ :=
          ih ⟨st.createdCount + 1, st.updatedCount, st.skippedCount,
              st.failedCount, st.processedCount + 1, st.failedBookmarks⟩
        simp only [syncBookmarksLoop, hp, List.filterMap_cons, List.length_cons] at *
        exact ⟨by omega, by omega, by simpa using H3, by simpa using H4⟩
      | updated =>
        obtain ⟨H1, H2, H3, H4⟩ :=
          ih ⟨st.createdCount, st.updatedCount + 1, st.skippedCount,
              st.failedCount, st.processedCount + 1, st.failedBookmarks⟩
        simp only [syncBookmarksLoop, hp, List.filterMap_cons, List.length_cons] at *
        exact ⟨by omega, by omega, by simpa using H3, by simpa using H4⟩
      | skipped =>
        obtain ⟨H1, H2, H3, H4⟩ :=
          ih ⟨st.createdCount, st.updatedCount, st.skippedCount + 1,
              st.failedCount, st.processedCount + 1, st.failedBookmarks⟩
        simp only [syncBookmarksLoop, hp, List.filterMap_cons, List.length_cons] at *
        exact ⟨by omega, by omega, by simpa using H3, by simpa using H4⟩
    | error e =>
      obtain ⟨H1, H2, H3, H4⟩ :=
        ih ⟨st.createdCount, st.updatedCount, st.skippedCount,
            st.failedCount + 1, st.processedCount + 1, st.failedBookmarks ++
              [(bm.rid, (if bm.title = [] then str "Untitled" else bm.title), e)]⟩
      simp only [syncBookmarksLoop, hp, List.filterMap_cons, List.length_cons] at *
      refine ⟨by omega, by omega, ?_, by omega⟩
      rw [H3]
      simp

/-- Claim C8: in the forward pass, a record whose processing throws is
counted as failed with its id, its title (defaulted to `Untitled`) and the
error message retained, and every record of the list is still processed: the
four counters sum to the list length and the failure list is exactly the
list of erroring records, in order. -/
theorem claimC8_failures (process : RaindropBookmark → Except Str SyncOutcome)
    (bms : List RaindropBookmark) :
    (runForwardPass process bms).processedCount = bms.length ∧
    (runForwardPass process bms).createdCount +
      (runForwardPass process bms).updatedCount +
      (runForwardPass process bms).skippedCount +
      (runForwardPass process bms).failedCount = bms.length ∧
    (runForwardPass process bms).failedBookmarks =
      bms.filterMap (fun bm =>
        match process bm with
        | Except.error e =>
          some (bm.rid, (if bm.title = [] then str "Untitled" else bm.title), e)
        | Except.ok _ => none) ∧
    (runForwardPass process bms).failedCount =
      (runForwardPass process bms).failedBookmarks.length := by
  have h := syncLoop_spec process bms initialPassState
  refine ⟨?_, ?_, ?_, ?_⟩
  · simpa [initialPassState, runForwardPass] using h.1
  · simpa [initialPassState, runForwardPass] using h.2.1
  · simpa [initialPassState, runForwardPass] using h.2.2.1
  · rw [runForwardPass, h.2.2.1, h.2.2.2]
    simp [initialPassState]

theorem undoAux_count (fs : List VFile) : ∀ v n,
    (undoSyncAux fs (v, n)).2 = n + (fs.filter undoDeletesFile).length := by
  induction fs with
  | nil => intro v n; simp [undoSyncAux]
  | cons f fs ih =>
    intro v n
    by_cases h : undoDeletesFile f
    · simp [undoSyncAux, h, ih]
      omega
    · simp [undoSyncAux, h, ih]

theorem undoAux_filter (fs : List VFile) : ∀ v n,
    (undoSyncAux fs (v, n)).1 = v.filter (keptBy fs) := by
  induction fs with
  | nil =>
    intro v n
    rw [undoSyncAux]
    exact (List.filter_eq_self.mpr (fun a _ => rfl)).symm
  | cons f fs ih =>
    intro v n
    by_cases h : undoDeletesFile f
    · simp only [undoSyncAux, h, if_pos]
      rw [ih]
      rw [vaultDelete, List.filter_filter]
      apply List.filter_congr
      intro g hg
      simp [keptBy, h, Bool.and_comm]
    · simp only [undoSyncAux, h]
      rw [if_neg (by simp [h]), ih]
      apply List.filter_congr
      intro g hg
      simp [keptBy, h]

/-- Claim C10: the undo-all command deletes exactly the markdown files whose
frontmatter block contains the `type: raindrop-bookmark` marker; files with
another extension, markdown files without a frontmatter block, and markdown
files whose frontmatter lacks the marker all survive unchanged, and the
deleted count is the number of matching files. -/
theorem claimC10_undo (vault : Vault) (hnodup : (vault.map VFile.path).Nodup) :
    (undoSync vault).1 = vault.filter (fun f => !undoDeletesFile f) ∧
    (undoSync vault).2 = (vault.filter undoDeletesFile).length ∧
    (∀ f ∈ vault, isMdFile f = false → f ∈ (undoSync vault).1) ∧
    (∀ f ∈ vault, extractFrontmatter f.content = none → f ∈ (undoSync vault).1) ∧
    (∀ f ∈ vault, ∀ fm rest, extractFrontmatter f.content = some (fm, rest) →
      sContains fm (str "type: raindrop-bookmark") = false →
      f ∈ (undoSync vault).1) ∧
    (∀ f ∈ vault, undoDeletesFile f = true → f ∉ (undoSync vault).1) := by
  have hinj : ∀ x ∈ vault, ∀ y ∈ vault, x.path = y.path → x = y := by
    intro x hx y hy hxy
    exact List.inj_on_of_nodup_map hnodup hx hy hxy
  have hmain : (undoSync vault).1 = vault.filter (fun f => !undoDeletesFile f) := by
    rw [undoSync, undoAux_filter]
    apply List.filter_congr
    intro g hg
    by_cases hdel : undoDeletesFile g
    · simp only [hdel, Bool.not_true]
      rw [keptBy]
      cases hall : vault.all
          (fun f => !(undoDeletesFile f && decide (g.path = f.path))) with
      | false => rfl
      | true =>
        rw [List.all_eq_true] at hall
        have := hall g hg
        simp [hdel] at this
    · simp only [hdel, Bool.not_false]
      rw [keptBy]
      simp only [List.all_eq_true]
      intro f hf
      by_cases hpath : g.path = f.path
      · have : g = f := hinj g hg f hf hpath
        subst this
        simp [hdel]
      · simp [hpath]
  refine ⟨hmain, by simp [undoSync, undoAux_count], ?_, ?_, ?_, ?_⟩
  · intro f hf hmd
    rw [hmain, List.mem_filter]
    exact ⟨hf, by simp [undoDeletesFile, hmd]⟩
  · intro f hf hfm
    rw [hmain, List.mem_filter]
    exact ⟨hf, by simp [undoDeletesFile, hfm]⟩
  · intro f hf fm rest hfm hmark
    rw [hmain, List.mem_filter]
    exact ⟨hf, by simp [undoDeletesFile, hfm, hmark]⟩
  · intro f hf hdel
    rw [hmain]
    intro hmem
    rw [List.mem_filter] at hmem
    simp [hdel] at hmem

/-- Witness for C10: on a concrete four-file vault exactly the marked
markdown file is deleted. -/
theorem claimC10_witness :
    (vaultC10.map VFile.path).Nodup ∧ (undoSync vaultC10).2 = 1 :=
  ⟨by decide, by
    have h := claimC10_undo vaultC10 (by decide)
    rw [h.2.1]
    decide⟩

theorem substTemplate_no_dollar (m b a : Str) (g : List Str) :
    ∀ t, dollarC ∉ t → substTemplate m b a g t = t := by
  intro t
  induction t with
  | nil => intro _; rfl
  | cons c rest ih =>
    intro h
    have hc : ¬ c = dollarC := fun e => h (e ▸ List.mem_cons_self c rest)
    have hrest : dollarC ∉ rest := fun e => h (List.mem_cons_of_mem c e)
    cases rest with
    | nil => rfl
    | cons d rest' =>
      rw [substTemplate.eq_def]
      simp only [if_neg hc]
      exact congrArg (c :: ·) (ih hrest)

theorem renderNat_no_dollar (n : Nat) : dollarC ∉ renderNat n := by
  intro h
  have := renderNat_digits n dollarC h
  simp [dollarC] at this

theorem replaceFirstAux_hit (anch : Str → Option (Str × Str × List Str))
    (tpl pre s m rest : Str) (gs : List Str)
    (h : anch s = some (m, rest, gs)) (hs : s ≠ []) :
    replaceFirstAux anch tpl pre s =
      pre ++ substTemplate m pre rest gs tpl ++ rest := by
  cases s with
  | nil => exact absurd rfl hs
  | cons c s' => simp [replaceFirstAux, h]

theorem replaceFirstAux_skip (anch : Str → Option (Str × Str × List Str))
    (tpl : Str) :
    ∀ (a b pre0 : Str), (∀ i, i < a.length → anch ((a ++ b).drop i) = none) →
      replaceFirstAux anch tpl pre0 (a ++ b) =
        replaceFirstAux anch tpl (pre0 ++ a) b := by
  intro a
  induction a with
  | nil => intro b pre0 _; simp
  | cons x a' ih =>
    intro b pre0 h
    have h0 : anch (x :: (a' ++ b)) = none := by
      have := h 0 (by simp)
      simpa using this
    have hrec : ∀ i, i < a'.length → anch ((a' ++ b).drop i) = none := by
      intro i hi
      have := h (i + 1) (by simp; omega)
      simpa using this
    calc replaceFirstAux anch tpl pre0 ((x :: a') ++ b)
        = replaceFirstAux anch tpl (pre0 ++ [x]) (a' ++ b) := by
          simp only [List.cons_append, replaceFirstAux, List.append_eq, h0]
      _ = replaceFirstAux anch tpl ((pre0 ++ [x]) ++ a') b := ih b (pre0 ++ [x]) hrec
      _ = replaceFirstAux anch tpl (pre0 ++ (x :: a')) b := by
          simp

theorem scanFirst_append {α : Type} (f : Str → Option α) :
    ∀ a b, (∀ i, i < a.length → f ((a ++ b).drop i) = none) →
      scanFirst f (a ++ b) = scanFirst f b := by
  intro a
  induction a with
  | nil => intro b _; rfl
  | cons x a' ih =>
    intro b h
    have h0 : f (x :: (a' ++ b)) = none := by
      have := h 0 (by simp)
      simpa using this
    have hrec : ∀ i, i < a'.length → f ((a' ++ b).drop i) = none := by
      intro i hi
      have := h (i + 1) (by simp; omega)
      simpa using this
    calc scanFirst f ((x :: a') ++ b)
        = scanFirst f (a' ++ b) := by
          simp only [List.cons_append, scanFirst, List.append_eq, h0]
      _ = scanFirst f b := ih b hrec

theorem takeWhile_append_cons (p : Char → Bool) (a : Str) (c : Char) (b : Str)
    (ha : ∀ x ∈ a, p x = true) (hc : p c = false) :
    (a ++ c :: b).takeWhile p = a := by
  induction a with
  | nil => simp [List.takeWhile_cons, hc]
  | cons y a' ih =>
    have hy : p y = true := ha y (List.mem_cons_self y a')
    have ha' : ∀ x ∈ a', p x = true := fun x hx => ha x (List.mem_cons_of_mem y hx)
    simp [List.takeWhile_cons, hy, ih ha']

theorem isPrefixOf_append_self (l t : Str) : l.isPrefixOf (l ++ t) = true := by
  rw [List.isPrefixOf_iff_prefix]
  exact List.prefix_append l t

/-- Claim C7: the claim asserts the reverse-pass rewrite changes only the
last_synced metadata value, every other byte including the annotation body
being unchanged.  Counterexample: `fileC7` has a bookmark id but no
last_synced field in its frontmatter, so the reverse pass pushes it (missing
last-synced defaults to epoch), and the whole-content replace of
src/main.ts:833-836 then hits the `last_synced: what` line inside the
annotation body: the rewritten document's annotation body differs from the
prior one. -/
theorem claimC7_counterexample :
    syncNoteStep fileC7 9 =
      ReverseAction.pushed 7 (str "last_synced: what") []
        (str "---\nraindrop_id: 7\n---\n\n# T\n\n## Notes\n\nlast_synced: 9\n") ∧
    annotationBody fileC7.content = some (str "last_synced: what") ∧
    annotationBody
        (str "---\nraindrop_id: 7\n---\n\n# T\n\n## Notes\n\nlast_synced: 9\n") =
      some (str "last_synced: 9") := by decide


theorem anchValueAfter_spec (key val tail : Str) (hv : val ≠ [])
    (hhead : ∀ c, val.head? = some c → isWs c = false) (hnl : nlC ∉ val) :
    anchValueAfter key (key ++ ' ' :: (val ++ nlC :: tail)) =
      some (val, key.length + 1 + val.length) := by
  cases val with
  | nil => exact absurd rfl hv
  | cons c0 v' =>
    have hc0 : isWs c0 = false := hhead c0 rfl
    have hdrop : (key ++ ' ' :: ((c0 :: v') ++ nlC :: tail)).drop key.length =
        ' ' :: ((c0 :: v') ++ nlC :: tail) := List.drop_left key _
    have hw : (' ' :: ((c0 :: v') ++ nlC :: tail)).takeWhile isWs = [' '] := by
      rw [List.takeWhile_cons]
      have hsp : isWs ' ' = true := by decide
      rw [if_pos hsp]
      rw [List.cons_append, List.takeWhile_cons, if_neg (by simp [hc0])]
    have hg : ((c0 :: v') ++ nlC :: tail).takeWhile (fun x => decide (x ≠ nlC)) =
        c0 :: v' := by
      apply takeWhile_append_cons
      · intro x hx
        simp
        exact fun e => hnl (e ▸ hx)
      · simp
    rw [anchValueAfter,
      if_pos (isPrefixOf_append_self key (' ' :: ((c0 :: v') ++ nlC :: tail)))]
    simp only [hdrop, hw]
    have hrest : (' ' :: ((c0 :: v') ++ nlC :: tail)).drop [' '].length =
        (c0 :: v') ++ nlC :: tail := rfl
    simp only [hrest]
    rw [if_pos (by simp)]
    simp only [hg, List.length_singleton, List.length_cons]
    constructor

theorem anchLastSyncedSpan_spec (val post : Str) (hv : val ≠ [])
    (hhead : ∀ c, val.head? = some c → isWs c = false) (hnl : nlC ∉ val) :
    anchLastSyncedSpan (str "last_synced: " ++ (val ++ nlC :: post)) =
      some (str "last_synced: " ++ val, nlC :: post, []) := by
  have hshape : str "last_synced: " ++ (val ++ nlC :: post) =
      str "last_synced:" ++ ' ' :: (val ++ nlC :: post) := by
    simp [str]
  rw [anchLastSyncedSpan, hshape,
    anchValueAfter_spec (str "last_synced:") val post hv hhead hnl]
  have hlen : (str "last_synced:").length + 1 + val.length =
      (str "last_synced:" ++ ' ' :: val).length := by
    simp
    omega
  rw [Option.map_some']
  have htake : (str "last_synced:" ++ ' ' :: (val ++ nlC :: post)).take
      ((str "last_synced:").length + 1 + val.length) =
      str "last_synced:" ++ ' ' :: val := by
    rw [hlen]
    have : str "last_synced:" ++ ' ' :: (val ++ nlC :: post) =
        (str "last_synced:" ++ ' ' :: val) ++ nlC :: post := by
      simp
    rw [this]
    exact List.take_left _ _
  have hdrop : (str "last_synced:" ++ ' ' :: (val ++ nlC :: post)).drop
      ((str "last_synced:").length + 1 + val.length) = nlC :: post := by
    rw [hlen]
    have : str "last_synced:" ++ ' ' :: (val ++ nlC :: post) =
        (str "last_synced:" ++ ' ' :: val) ++ nlC :: post := by
      simp
    rw [this]
    exact List.drop_left _ _
  rw [htake, hdrop]
  have : str "last_synced:" ++ ' ' :: val = str "last_synced: " ++ val := by
    simp [str]
  rw [this]

/-- Claim C7 (amended): when the leftmost match of the last_synced pattern
lies in the metadata block — the document has shape
`pre ++ "last_synced: " ++ value ++ "\n" ++ post` with no earlier match in
`pre` and a non-empty single-line value — the successful-push rewrite of
src/main.ts:833-836 replaces exactly that value with the fresh timestamp,
leaving every other byte of the document, including the annotation body,
unchanged; when the frontmatter lacks the field the replace may instead
alter a matching line inside the annotation body. -/
theorem claimC7_amended (pre val post : Str) (now : Nat)
    (hpre : ∀ i, i < pre.length →
      anchLastSyncedSpan
        ((pre ++ (str "last_synced: " ++ (val ++ nlC :: post))).drop i) = none)
    (hv : val ≠ [])
    (hhead : ∀ c, val.head? = some c → isWs c = false) (hnl : nlC ∉ val) :
    replaceLastSynced now (pre ++ (str "last_synced: " ++ (val ++ nlC :: post))) =
      pre ++ (str "last_synced: " ++ (renderNat now ++ nlC :: post)) := by
  rw [replaceLastSynced, replaceFirst]
  rw [replaceFirstAux_skip anchLastSyncedSpan _
    pre (str "last_synced: " ++ (val ++ nlC :: post)) [] hpre]
  rw [replaceFirstAux_hit anchLastSyncedSpan _ ([] ++ pre)
    (str "last_synced: " ++ (val ++ nlC :: post))
    (str "last_synced: " ++ val) (nlC :: post) []
    (anchLastSyncedSpan_spec val post hv hhead hnl) (by simp [str])]
  rw [substTemplate_no_dollar]
  · simp
  · intro hmem
    rw [List.mem_append] at hmem
    rcases hmem with h | h
    · revert h
      decide
    · exact renderNat_no_dollar now h

/-- Witness for C7: a concrete well-formed document has only its last_synced
value rewritten. -/
theorem claimC7_witness :
    replaceLastSynced 9
        (str "---\nraindrop_id: 7\n" ++
          (str "last_synced: " ++ (str "3" ++ nlC :: str "---\n\n## Notes\n\nx\n"))) =
      str "---\nraindrop_id: 7\n" ++
        (str "last_synced: " ++ (renderNat 9 ++ nlC :: str "---\n\n## Notes\n\nx\n")) :=
  claimC7_amended (str "---\nraindrop_id: 7\n") (str "3")
    (str "---\n\n## Notes\n\nx\n") 9 (by decide) (by decide) (by decide)
    (by decide)

theorem unescape_cons_ne (c : Char) (t : Str) (hc : ¬ c = bslashC) :
    unescapeYaml (c :: t) = c :: unescapeYaml t := by
  cases t with
  | nil => rfl
  | cons d rest =>
    rw [unescapeYaml.eq_def]
    simp [hc]

theorem escBackslashes_append (a b : Str) :
    escBackslashes (a ++ b) = escBackslashes a ++ escBackslashes b := by
  simp [escBackslashes]

theorem escQuotes_append (a b : Str) :
    escQuotes (a ++ b) = escQuotes a ++ escQuotes b := by
  simp [escQuotes]

theorem unescape_escape (v : Str) :
    unescapeYaml (escQuotes (escBackslashes v)) = v := by
  induction v with
  | nil => rfl
  | cons c v' ih =>
    have hstep : escBackslashes (c :: v') =
        (if c = bslashC then [bslashC, bslashC] else [c]) ++ escBackslashes v' := by
      simp [escBackslashes]
    by_cases hb : c = bslashC
    · subst hb
      have hstep2 : escBackslashes (bslashC :: v') =
          [bslashC, bslashC] ++ escBackslashes v' := by
        simp [escBackslashes]
      rw [hstep2, escQuotes_append]
      have h2 : escQuotes [bslashC, bslashC] = [bslashC, bslashC] := by decide
      rw [h2]
      show unescapeYaml (bslashC :: bslashC :: (escQuotes (escBackslashes v'))) = _
      rw [unescapeYaml.eq_def]
      simp [ih]
    · by_cases hq : c = quoteC
      · subst hq
        have hstep2 : escBackslashes (quoteC :: v') =
            [quoteC] ++ escBackslashes v' := by
          simp [escBackslashes, hb]
        rw [hstep2, escQuotes_append]
        have h2 : escQuotes [quoteC] = [bslashC, quoteC] := by decide
        rw [h2]
        show unescapeYaml (bslashC :: quoteC :: (escQuotes (escBackslashes v'))) = _
        rw [unescapeYaml.eq_def]
        simp [ih]
      · have hstep2 : escBackslashes (c :: v') = [c] ++ escBackslashes v' := by
          simp [escBackslashes, hb]
        rw [hstep2, escQuotes_append]
        have h2 : escQuotes [c] = [c] := by
          simp [escQuotes, hq]
        rw [h2]
        rw [List.singleton_append, unescape_cons_ne c _ hb, ih]

theorem mem_escBackslashes (c : Char) (v : Str) (h : c ∈ escBackslashes v) :
    c = bslashC ∨ c ∈ v := by
  rw [escBackslashes, List.mem_flatMap] at h
  obtain ⟨x, hx, hcx⟩ := h
  by_cases hb : x = bslashC
  · simp [hb] at hcx
    exact Or.inl hcx
  · simp [hb] at hcx
    exact Or.inr (hcx ▸ hx)

theorem mem_escQuotes (c : Char) (v : Str) (h : c ∈ escQuotes v) :
    c = bslashC ∨ c ∈ v := by
  rw [escQuotes, List.mem_flatMap] at h
  obtain ⟨x, hx, hcx⟩ := h
  by_cases hb : x = quoteC
  · subst hb
    simp at hcx
    rcases hcx with h1 | h1
    · exact Or.inl h1
    · exact Or.inr (h1 ▸ hx)
  · simp [hb] at hcx
    exact Or.inr (hcx ▸ hx)

theorem escapeYamlValue_no_nl (v : Str) (h : nlC ∉ v) :
    nlC ∉ escapeYamlValue v := by
  rw [escapeYamlValue.eq_def]
  by_cases hv : v = []
  · simp only [hv, if_pos rfl]
    decide
  · rw [if_neg hv]
    by_cases hq : needsQuotingB v = true
    · rw [if_pos hq]
      intro hmem
      simp only [List.mem_cons, List.mem_append, List.mem_singleton] at hmem
      rcases hmem with h1 | h1
      · revert h1; decide
      rcases h1 with h1 | h1
      · rcases mem_escQuotes _ _ h1 with h2 | h2
        · revert h2; decide
        · rcases mem_escBackslashes _ _ h2 with h3 | h3
          · revert h3; decide
          · exact h h3
      · revert h1; decide
    · rw [if_neg hq]
      exact h

/-- The escape and spec-modelled unquote round-trip exactly on single-line
values. -/
theorem unquote_escape (v : Str) (h : nlC ∉ v) :
    unquoteYamlValue (escapeYamlValue v) = v := by
  rw [escapeYamlValue.eq_def]
  by_cases hv : v = []
  · simp only [hv, if_pos rfl]
    decide
  · rw [if_neg hv]
    by_cases hq : needsQuotingB v = true
    · rw [if_pos hq]
      rw [unquoteYamlValue]
      rw [if_pos]
      · have hdrop : (quoteC :: (escQuotes (escBackslashes v) ++ [quoteC])).drop 1 =
            escQuotes (escBackslashes v) ++ [quoteC] := rfl
        rw [hdrop, List.dropLast_concat]
        exact unescape_escape v
      · refine ⟨by simp, rfl, ?_⟩
        show ((quoteC :: escQuotes (escBackslashes v)) ++ [quoteC]).getLast? =
          some quoteC
        exact List.getLast?_concat _
    · rw [if_neg hq]
      -- v is unquoted: it contains no quote character, so the quoted-branch
      -- test of the decoder fails
      rw [unquoteYamlValue]
      rw [if_neg]
      intro ⟨h2, hhead, hlast⟩
      cases v with
      | nil => exact hv rfl
      | cons c0 v' =>
        simp at hhead
        apply hq
        rw [needsQuotingB]
        have hcont : yamlSpecialChars.contains c0 = true := by
          rw [hhead]; decide
        have hany : (c0 :: v').any (yamlSpecialChars.contains ·) = true := by
          rw [List.any_cons, hcont, Bool.true_or]
        rw [hany, Bool.true_or, Bool.true_or, Bool.true_or]

theorem splitLines_ne_nil (s : Str) : splitLines s ≠ [] := by
  cases s with
  | nil => simp [splitLines, splitOnChar]
  | cons c s' =>
    rw [splitLines, splitOnChar]
    by_cases h : c = nlC
    · simp [h]
    · simp only [if_neg h]
      cases hs : splitOnChar nlC s' with
      | nil => simp
      | cons l ls => simp

theorem splitLines_cons_ne (c : Char) (s : Str) (h : ¬ c = nlC) :
    splitLines (c :: s) =
      (c :: (splitLines s).headD []) :: (splitLines s).tail := by
  rw [splitLines, splitOnChar, if_neg h]
  cases hs : splitOnChar nlC s with
  | nil => exact absurd hs (splitLines_ne_nil s)
  | cons l ls => simp [splitLines, hs]

theorem splitLines_append (a b : Str) (ha : nlC ∉ a) :
    splitLines (a ++ nlC :: b) = a :: splitLines b := by
  induction a with
  | nil =>
    show splitLines (nlC :: b) = [] :: splitLines b
    rw [splitLines, splitOnChar, if_pos rfl]
  | cons c a' ih =>
    have hc : ¬ c = nlC := fun e => ha (e ▸ List.mem_cons_self c a')
    have ha' : nlC ∉ a' := fun e => ha (List.mem_cons_of_mem c e)
    rw [List.cons_append, splitLines, splitOnChar, if_neg hc]
    have := ih ha'
    rw [splitLines] at this
    rw [this]

theorem ws_cases (c : Char) (h : isWs c = true) :
    c = ' ' ∨ c = Char.ofNat 9 ∨ c = nlC ∨ c = Char.ofNat 13 ∨
    c = Char.ofNat 12 ∨ c = Char.ofNat 11 := by
  simp [isWs] at h
  tauto

theorem wordHyphen_props (c : Char) (h : (isWordChar c || decide (c = '-')) = true) :
    isWs c = false ∧ ¬ c = nlC := by
  constructor
  · cases hw : isWs c
    · rfl
    · exfalso
      rcases ws_cases c hw with h1 | h1 | h1 | h1 | h1 | h1 <;>
        (subst h1; revert h; decide)
  · intro he
    subst he
    revert h
    decide

theorem digit_not_ws (c : Char) (h : c.isDigit = true) : isWs c = false := by
  cases hw : isWs c
  · rfl
  · exfalso
    rcases ws_cases c hw with h1 | h1 | h1 | h1 | h1 | h1 <;>
      (subst h1; revert h; decide)

theorem digit_ne_nl (c : Char) (h : c.isDigit = true) : ¬ c = nlC := by
  intro he
  subst he
  revert h
  decide

theorem dropWhile_eq_self_of_head (p : Char → Bool) (s : Str)
    (h : ∀ c, s.head? = some c → p c = false) : s.dropWhile p = s := by
  cases s with
  | nil => rfl
  | cons c s' =>
    rw [List.dropWhile_cons, if_neg]
    simp [h c rfl]

theorem trimStr_of_no_ws (t : Str) (h : ∀ c ∈ t, isWs c = false) :
    trimStr t = t := by
  rw [trimStr]
  rw [dropWhile_eq_self_of_head isWs t (fun c hc => h c (by
    cases t with
    | nil => simp at hc
    | cons x t' => simp at hc; exact hc ▸ List.mem_cons_self x t'))]
  rw [dropWhile_eq_self_of_head isWs t.reverse (fun c hc => h c (by
    have : c ∈ t.reverse := by
      cases ht : t.reverse with
      | nil => simp [ht] at hc
      | cons x t' =>
        rw [ht] at hc
        simp at hc
        subst hc
        exact ht ▸ List.mem_cons_self x t'
    exact List.mem_reverse.mp this))]
  exact List.reverse_reverse t

theorem anchRaindropId_spec (rid : Nat) (tail : Str) :
    anchRaindropId (str "raindrop_id: " ++ (renderNat rid ++ nlC :: tail)) =
      some rid := by
  obtain ⟨d, ds, hds⟩ : ∃ d ds, renderNat rid = d :: ds := by
    cases h : renderNat rid with
    | nil => exact absurd h (renderNat_ne_nil rid)
    | cons d ds => exact ⟨d, ds, rfl⟩
  have hd : d.isDigit = true := by
    apply renderNat_digits rid
    rw [hds]
    exact List.mem_cons_self d ds
  have hshape : str "raindrop_id: " ++ (renderNat rid ++ nlC :: tail) =
      str "raindrop_id:" ++ (' ' :: (renderNat rid ++ nlC :: tail)) := by
    simp [str]
  rw [anchRaindropId, if_pos (by rw [hshape]; exact isPrefixOf_append_self _ _)]
  have hdropped : (str "raindrop_id: " ++ (renderNat rid ++ nlC :: tail)).drop 12 =
      ' ' :: (renderNat rid ++ nlC :: tail) := by
    rw [hshape]
    exact List.drop_left' (by decide)
  rw [hdropped]
  have hdw : (' ' :: (renderNat rid ++ nlC :: tail)).dropWhile isWs =
      renderNat rid ++ nlC :: tail := by
    rw [List.dropWhile_cons, if_pos (by decide)]
    apply dropWhile_eq_self_of_head
    intro c hc
    rw [hds] at hc
    simp at hc
    exact hc ▸ digit_not_ws d hd
  rw [hdw]
  have htw : (renderNat rid ++ nlC :: tail).takeWhile Char.isDigit =
      renderNat rid := by
    apply takeWhile_append_cons
    · exact renderNat_digits rid
    · decide
  show (if (renderNat rid ++ nlC :: tail).takeWhile Char.isDigit ≠ [] then
      some (natOfDigits ((renderNat rid ++ nlC :: tail).takeWhile Char.isDigit))
    else none) = some rid
  rw [htw]
  rw [if_pos (renderNat_ne_nil rid), natOfDigits_renderNat]

theorem takeTagLines_append (lines rest : List Str)
    (h : ∀ l ∈ lines, (str "  - ").isPrefixOf l = true ∧ 4 < l.length) :
    takeTagLines (lines ++ rest) = lines ++ takeTagLines rest := by
  induction lines with
  | nil => rfl
  | cons l ls ih =>
    have hl := h l (List.mem_cons_self l ls)
    rw [List.cons_append, takeTagLines, if_pos ⟨hl.1, hl.2⟩]
    rw [ih (fun x hx => h x (List.mem_cons_of_mem l hx))]
    rfl

theorem takeTagLines_stop (l : Str) (ls : List Str)
    (h : ¬ ((str "  - ").isPrefixOf l = true ∧ 4 < l.length)) :
    takeTagLines (l :: ls) = [] := by
  rw [takeTagLines, if_neg]
  intro ⟨h1, h2⟩
  exact h ⟨h1, h2⟩

theorem splitLines_intercalate (lines : List Str) :
    ∀ rest : Str, lines ≠ [] → (∀ l ∈ lines, nlC ∉ l) →
    splitLines (List.intercalate [nlC] lines ++ nlC :: rest) =
      lines ++ splitLines rest := by
  induction lines with
  | nil => intro rest h _; exact absurd rfl h
  | cons l ls ih =>
    intro rest _ h
    cases ls with
    | nil =>
      have h1 : List.intercalate [nlC] [l] = l := by
        simp [List.intercalate]
      rw [h1]
      rw [splitLines_append l rest (h l (List.mem_cons_self l []))]
      rfl
    | cons l2 ls' =>
      have h1 : List.intercalate [nlC] (l :: l2 :: ls') =
          l ++ [nlC] ++ List.intercalate [nlC] (l2 :: ls') := by
        simp [List.intercalate]
      rw [h1]
      have hassoc : l ++ [nlC] ++ List.intercalate [nlC] (l2 :: ls') ++ nlC :: rest =
          l ++ nlC :: (List.intercalate [nlC] (l2 :: ls') ++ nlC :: rest) := by
        simp
      rw [hassoc]
      rw [splitLines_append l _ (h l (List.mem_cons_self l _))]
      rw [ih rest (by simp) (fun x hx => h x (List.mem_cons_of_mem l hx))]
      rfl

theorem tagLinesGroup_spec (lines : List Str) (rest : Str) (hne : lines ≠ [])
    (hq : ∀ l ∈ lines, (str "  - ").isPrefixOf l = true ∧ 4 < l.length ∧ nlC ∉ l)
    (hstop : ¬ ((str "  - ").isPrefixOf ((splitLines rest).headD []) = true ∧
      4 < ((splitLines rest).headD []).length)) :
    tagLinesGroup (List.intercalate [nlC] lines ++ nlC :: rest) =
      (lines.map (· ++ [nlC])).flatten := by
  rw [tagLinesGroup]
  have hsplit : splitLines (List.intercalate [nlC] lines ++ nlC :: rest) =
      lines ++ splitLines rest :=
    splitLines_intercalate lines rest hne (fun l hl => (hq l hl).2.2)
  obtain ⟨hd, tl, hrest⟩ : ∃ hd tl, splitLines rest = hd :: tl := by
    cases h : splitLines rest with
    | nil => exact absurd h (splitLines_ne_nil rest)
    | cons hd tl => exact ⟨hd, tl, rfl⟩
  have htake : takeTagLines (lines ++ splitLines rest) = lines := by
    rw [takeTagLines_append lines _ (fun l hl => ⟨(hq l hl).1, (hq l hl).2.1⟩)]
    rw [hrest, takeTagLines_stop]
    · simp
    · rw [hrest] at hstop
      simpa using hstop
  simp only [hsplit, htake]
  rw [if_pos]
  rw [hrest]
  simp

theorem splitLines_flatten_map (lines : List Str)
    (h : ∀ l ∈ lines, nlC ∉ l) :
    splitLines ((lines.map (· ++ [nlC])).flatten) = lines ++ [[]] := by
  induction lines with
  | nil => rfl
  | cons l ls ih =>
    have hstep : ((l :: ls).map (· ++ [nlC])).flatten =
        l ++ nlC :: ((ls.map (· ++ [nlC])).flatten) := by
      simp
    rw [hstep, splitLines_append l _ (h l (List.mem_cons_self l ls))]
    rw [ih (fun x hx => h x (List.mem_cons_of_mem l hx))]
    rfl

theorem stripDash_tag (t : Str)
    (hhead : ∀ c, t.head? = some c → isWs c = false) :
    stripLeadingDash (str "  - " ++ t) = t := by
  rw [stripLeadingDash]
  have hw : (str "  - " ++ t).takeWhile isWs = [' ', ' '] := by
    show ([' ', ' '] ++ ('-' :: (' ' :: t))).takeWhile isWs = [' ', ' ']
    apply takeWhile_append_cons
    · decide
    · decide
  rw [hw]
  have hdrop : (str "  - " ++ t).drop [' ', ' '].length = '-' :: (' ' :: t) := rfl
  rw [hdrop]
  show (if ('-' : Char) = '-' then List.dropWhile isWs (' ' :: t)
    else str "  - " ++ t) = t
  rw [if_pos rfl]
  rw [List.dropWhile_cons, if_pos (by decide)]
  exact dropWhile_eq_self_of_head isWs t hhead

theorem obsidianTags_wf (tags : List Str) : ∀ t ∈ obsidianTags tags,
    t ≠ [] ∧ ∀ c ∈ t, (isWordChar c || decide (c = '-')) = true := by
  have hdefault : (str "raindrop-bookmarks" : Str) ≠ [] ∧
      ∀ c ∈ (str "raindrop-bookmarks" : Str),
        (isWordChar c || decide (c = '-')) = true := by
    constructor
    · decide
    · decide
  have hsan : ∀ t ∈ sanitizeTags tags,
      t ≠ [] ∧ ∀ c ∈ t, (isWordChar c || decide (c = '-')) = true := by
    intro t ht
    rw [sanitizeTags] at ht
    rw [List.mem_filter] at ht
    obtain ⟨hmem, hne⟩ := ht
    refine ⟨by simpa using hne, ?_⟩
    rw [List.mem_map] at hmem
    obtain ⟨x, _, hx⟩ := hmem
    intro c hc
    rw [← hx, sanitizeTag] at hc
    exact (List.mem_filter.mp hc).2
  intro t ht
  rw [obsidianTags] at ht
  by_cases hc : (sanitizeTags tags).contains (str "raindrop-bookmarks")
  · rw [if_pos hc] at ht
    exact hsan t ht
  · rw [if_neg hc] at ht
    rcases List.mem_cons.mp ht with h | h
    · exact h ▸ hdefault
    · exact hsan t h

theorem obsidianTags_ne_nil (tags : List Str) : obsidianTags tags ≠ [] := by
  rw [obsidianTags]
  by_cases hc : (sanitizeTags tags).contains (str "raindrop-bookmarks")
  · rw [if_pos hc]
    intro h
    rw [h] at hc
    simp [List.contains] at hc
  · rw [if_neg hc]
    simp

theorem scanFirst_cons_some {α : Type} (f : Str → Option α) (c : Char)
    (s : Str) (r : α) (h : f (c :: s) = some r) :
    scanFirst f (c :: s) = some r := by
  rw [scanFirst, h]

theorem isPrefixOf_cons_ne (a b : Char) (as bs : Str) (h : ¬ a = b) :
    (a :: as).isPrefixOf (b :: bs) = false := by
  show (a == b && as.isPrefixOf bs) = false
  have : (a == b) = false := by
    simp [h]
  rw [this, Bool.false_and]

theorem tagStop_of_head (c : Char) (X : Str) (hc : ¬ c = nlC) (hsp : ¬ c = ' ') :
    ¬ ((str "  - ").isPrefixOf ((splitLines (c :: X)).headD []) = true ∧
      4 < ((splitLines (c :: X)).headD []).length) := by
  rw [splitLines_cons_ne c X hc]
  simp only [List.headD_cons]
  intro hcl
  have h1 := hcl.1
  rw [show (str "  - ") = ' ' :: str " - " from rfl] at h1
  rw [isPrefixOf_cons_ne ' ' c _ _ (fun e => hsp e.symm)] at h1
  exact Bool.false_ne_true h1

theorem fmBlock_tags_shape (bm : RaindropBookmark) (ct : Str) (now : Nat) :
    fmBlock bm ct now = fmTagsPre bm ct ++ (str "tags:\n" ++
      (List.intercalate [nlC] ((obsidianTags bm.tags).map (str "  - " ++ ·)) ++
        nlC :: fmTagsTail bm now)) := by
  have hts : tagsYamlOf (obsidianTags bm.tags) = str "tags:\n" ++
      List.intercalate [nlC] ((obsidianTags bm.tags).map (str "  - " ++ ·)) := by
    rw [tagsYamlOf, if_neg (obsidianTags_ne_nil bm.tags)]
  have e1 : str "\nraindrop_id: " = nlC :: str "raindrop_id: " := rfl
  have e2 : str "\ncreated: " = nlC :: str "created: " := rfl
  simp [fmBlock, fmTagsPre, fmIdPre, fmTagsTail, fmAfterTime, yamlTitleOf, hts,
    e1, e2, List.append_assoc]

theorem fmBlock_id_shape (bm : RaindropBookmark) (ct : Str) (now : Nat) :
    fmBlock bm ct now = fmIdPre bm ++ (str "raindrop_id: " ++
      (renderNat bm.rid ++ nlC :: fmAfterId bm ct now)) := by
  have e1 : str "\nraindrop_id: " = nlC :: str "raindrop_id: " := rfl
  have e3 : str "\ncollection: " = nlC :: str "collection: " := rfl
  simp [fmBlock, fmIdPre, fmAfterId, fmAfterTime, yamlTitleOf, e1, e3,
    List.append_assoc]

theorem fmBlock_lines_shape (bm : RaindropBookmark) (ct : Str) (now : Nat) :
    fmBlock bm ct now =
      (str "title: " ++ escapeYamlValue (yamlTitleOf bm)) ++ nlC ::
      ((str "url: " ++ escapeYamlValue bm.link) ++ nlC ::
      ((str "raindrop_id: " ++ renderNat bm.rid) ++ nlC ::
      ((str "collection: " ++ escapeYamlValue ct) ++ nlC ::
      (tagsYamlOf (obsidianTags bm.tags) ++ str "\ncreated: " ++ bm.created ++
        str "\nlast_synced: " ++ renderNat now ++ fmAfterTime bm)))) := by
  have e0 : str "\nurl: " = nlC :: str "url: " := rfl
  have e1 : str "\nraindrop_id: " = nlC :: str "raindrop_id: " := rfl
  have e3 : str "\ncollection: " = nlC :: str "collection: " := rfl
  simp [fmBlock, fmAfterTime, yamlTitleOf, e0, e1, e3, List.append_assoc]

theorem renderNat_no_nl (n : Nat) : nlC ∉ renderNat n := by
  intro h
  exact digit_ne_nl nlC (renderNat_digits n nlC h) rfl

theorem yamlTitleOf_no_nl (bm : RaindropBookmark) (htn : nlC ∉ bm.title) :
    nlC ∉ yamlTitleOf bm := by
  rw [yamlTitleOf]
  by_cases h : bm.title = []
  · rw [if_pos h]
    decide
  · rw [if_neg h]
    exact htn

theorem splitLines_fmBlock (bm : RaindropBookmark) (ct : Str) (now : Nat)
    (htn : nlC ∉ bm.title) (hun : nlC ∉ bm.link) (hcn : nlC ∉ ct) :
    splitLines (fmBlock bm ct now) =
      (str "title: " ++ escapeYamlValue (yamlTitleOf bm)) ::
      (str "url: " ++ escapeYamlValue bm.link) ::
      (str "raindrop_id: " ++ renderNat bm.rid) ::
      (str "collection: " ++ escapeYamlValue ct) ::
      splitLines (tagsYamlOf (obsidianTags bm.tags) ++ str "\ncreated: " ++
        bm.created ++ str "\nlast_synced: " ++ renderNat now ++
        fmAfterTime bm) := by
  rw [fmBlock_lines_shape]
  have h1 : nlC ∉ str "title: " ++ escapeYamlValue (yamlTitleOf bm) := by
    intro h
    rcases List.mem_append.mp h with h | h
    · revert h; decide
    · exact escapeYamlValue_no_nl _ (yamlTitleOf_no_nl bm htn) h
  have h2 : nlC ∉ str "url: " ++ escapeYamlValue bm.link := by
    intro h
    rcases List.mem_append.mp h with h | h
    · revert h; decide
    · exact escapeYamlValue_no_nl _ hun h
  have h3 : nlC ∉ str "raindrop_id: " ++ renderNat bm.rid := by
    intro h
    rcases List.mem_append.mp h with h | h
    · revert h; decide
    · exact renderNat_no_nl _ h
  have h4 : nlC ∉ str "collection: " ++ escapeYamlValue ct := by
    intro h
    rcases List.mem_append.mp h with h | h
    · revert h; decide
    · exact escapeYamlValue_no_nl _ hcn h
  rw [splitLines_append _ _ h1, splitLines_append _ _ h2,
    splitLines_append _ _ h3, splitLines_append _ _ h4]

theorem decodeField_gen (bm : RaindropBookmark) (ct : Str) (now : Nat)
    (ht : bm.title ≠ []) (htn : nlC ∉ bm.title) (hun : nlC ∉ bm.link)
    (hcn : nlC ∉ ct)
    (hfm : extractFrontmatter (generateNoteContent bm ct now) =
      some (fmBlock bm ct now, noteAfterFm bm ct)) :
    decodeYamlField (str "title") (generateNoteContent bm ct now) =
      some bm.title ∧
    decodeYamlField (str "url") (generateNoteContent bm ct now) =
      some bm.link ∧
    decodeYamlField (str "collection") (generateNoteContent bm ct now) =
      some ct := by
  have hlines := splitLines_fmBlock bm ct now htn hun hcn
  have hyt : yamlTitleOf bm = bm.title := by
    rw [yamlTitleOf, if_neg ht]
  have hp1 : (str "title" ++ str ": ").isPrefixOf
      (str "title: " ++ escapeYamlValue (yamlTitleOf bm)) = true := by
    rw [show str "title" ++ str ": " = str "title: " from rfl]
    exact isPrefixOf_append_self _ _
  have hn21 : (str "url" ++ str ": ").isPrefixOf
      (str "title: " ++ escapeYamlValue (yamlTitleOf bm)) = false := by
    rw [show str "url" ++ str ": " = 'u' :: str "rl: " from rfl,
      show str "title: " ++ escapeYamlValue (yamlTitleOf bm) =
        't' :: (str "itle: " ++ escapeYamlValue (yamlTitleOf bm)) from rfl]
    exact isPrefixOf_cons_ne _ _ _ _ (by decide)
  have hp2 : (str "url" ++ str ": ").isPrefixOf
      (str "url: " ++ escapeYamlValue bm.link) = true := by
    rw [show str "url" ++ str ": " = str "url: " from rfl]
    exact isPrefixOf_append_self _ _
  have hn31 : (str "collection" ++ str ": ").isPrefixOf
      (str "title: " ++ escapeYamlValue (yamlTitleOf bm)) = false := by
    rw [show str "collection" ++ str ": " = 'c' :: str "ollection: " from rfl,
      show str "title: " ++ escapeYamlValue (yamlTitleOf bm) =
        't' :: (str "itle: " ++ escapeYamlValue (yamlTitleOf bm)) from rfl]
    exact isPrefixOf_cons_ne _ _ _ _ (by decide)
  have hn32 : (str "collection" ++ str ": ").isPrefixOf
      (str "url: " ++ escapeYamlValue bm.link) = false := by
    rw [show str "collection" ++ str ": " = 'c' :: str "ollection: " from rfl,
      show str "url: " ++ escapeYamlValue bm.link =
        'u' :: (str "rl: " ++ escapeYamlValue bm.link) from rfl]
    exact isPrefixOf_cons_ne _ _ _ _ (by decide)
  have hn33 : (str "collection" ++ str ": ").isPrefixOf
      (str "raindrop_id: " ++ renderNat bm.rid) = false := by
    rw [show str "collection" ++ str ": " = 'c' :: str "ollection: " from rfl,
      show str "raindrop_id: " ++ renderNat bm.rid =
        'r' :: (str "aindrop_id: " ++ renderNat bm.rid) from rfl]
    exact isPrefixOf_cons_ne _ _ _ _ (by decide)
  have hp3 : (str "collection" ++ str ": ").isPrefixOf
      (str "collection: " ++ escapeYamlValue ct) = true := by
    rw [show str "collection" ++ str ": " = str "collection: " from rfl]
    exact isPrefixOf_append_self _ _
  refine ⟨?_, ?_, ?_⟩
  · rw [decodeYamlField, hfm]
    simp only [hlines]
    rw [List.find?_cons_of_pos _ hp1]
    have hdrop : (str "title: " ++ escapeYamlValue (yamlTitleOf bm)).drop
        ((str "title").length + 2) = escapeYamlValue (yamlTitleOf bm) :=
      List.drop_left' (by decide)
    show some (unquoteYamlValue ((str "title: " ++
      escapeYamlValue (yamlTitleOf bm)).drop ((str "title").length + 2))) =
      some bm.title
    rw [hdrop, unquote_escape _ (yamlTitleOf_no_nl bm htn), hyt]
  · rw [decodeYamlField, hfm]
    simp only [hlines]
    rw [List.find?_cons_of_neg _ (by simp [hn21]), List.find?_cons_of_pos _ hp2]
    have hdrop : (str "url: " ++ escapeYamlValue bm.link).drop
        ((str "url").length + 2) = escapeYamlValue bm.link :=
      List.drop_left' (by decide)
    show some (unquoteYamlValue ((str "url: " ++
      escapeYamlValue bm.link).drop ((str "url").length + 2))) = some bm.link
    rw [hdrop, unquote_escape _ hun]
  · rw [decodeYamlField, hfm]
    simp only [hlines]
    rw [List.find?_cons_of_neg _ (by simp [hn31]), List.find?_cons_of_neg _ (by simp [hn32]),
      List.find?_cons_of_neg _ (by simp [hn33]), List.find?_cons_of_pos _ hp3]
    have hdrop : (str "collection: " ++ escapeYamlValue ct).drop
        ((str "collection").length + 2) = escapeYamlValue ct :=
      List.drop_left' (by decide)
    show some (unquoteYamlValue ((str "collection: " ++
      escapeYamlValue ct).drop ((str "collection").length + 2))) = some ct
    rw [hdrop, unquote_escape _ hcn]

theorem decodeRaindropId_gen (bm : RaindropBookmark) (ct : Str) (now : Nat)
    (hfm : extractFrontmatter (generateNoteContent bm ct now) =
      some (fmBlock bm ct now, noteAfterFm bm ct))
    (hscanId : ∀ i, i < (fmIdPre bm).length →
      anchRaindropId ((fmBlock bm ct now).drop i) = none) :
    decodeRaindropId (generateNoteContent bm ct now) = some bm.rid := by
  rw [decodeRaindropId, hfm]
  show matchRaindropId (fmBlock bm ct now) = some bm.rid
  rw [matchRaindropId]
  rw [fmBlock_id_shape]
  rw [scanFirst_append anchRaindropId (fmIdPre bm) _ (by
    intro i hi
    have := hscanId i hi
    rwa [fmBlock_id_shape] at this)]
  rw [show str "raindrop_id: " ++ (renderNat bm.rid ++ nlC :: fmAfterId bm ct now) =
    'r' :: (str "aindrop_id: " ++ (renderNat bm.rid ++ nlC :: fmAfterId bm ct now))
    from rfl]
  apply scanFirst_cons_some
  exact anchRaindropId_spec bm.rid (fmAfterId bm ct now)


set_option maxHeartbeats 800000 in
theorem matchTags_fmBlock (bm : RaindropBookmark) (ct : Str) (now : Nat)
    (hscanTags : ∀ i, i < (fmTagsPre bm ct).length →
      anchTags ((fmBlock bm ct now).drop i) = none) :
    matchTags (fmBlock bm ct now) =
      some (tagLinesGroup (List.intercalate [nlC]
        ((obsidianTags bm.tags).map (str "  - " ++ ·)) ++ nlC ::
        fmTagsTail bm now)) := by
  rw [matchTags, fmBlock_tags_shape]
  rw [scanFirst_append anchTags (fmTagsPre bm ct) _ (by
    intro i hi
    have := hscanTags i hi
    rwa [fmBlock_tags_shape] at this)]
  rw [show str "tags:\n" ++ (List.intercalate [nlC] ((obsidianTags bm.tags).map
      (str "  - " ++ ·)) ++ nlC :: fmTagsTail bm now) =
    't' :: (str "ags:\n" ++ (List.intercalate [nlC] ((obsidianTags bm.tags).map
      (str "  - " ++ ·)) ++ nlC :: fmTagsTail bm now)) from rfl]
  apply scanFirst_cons_some
  rw [show 't' :: (str "ags:\n" ++ (List.intercalate [nlC] ((obsidianTags bm.tags).map
      (str "  - " ++ ·)) ++ nlC :: fmTagsTail bm now)) =
    str "tags:\n" ++ (List.intercalate [nlC] ((obsidianTags bm.tags).map
      (str "  - " ++ ·)) ++ nlC :: fmTagsTail bm now) from rfl]
  rw [anchTags, if_pos (isPrefixOf_append_self _ _)]
  rw [@List.drop_left' _ (str "tags:\n") _ _ (by decide)]

theorem tagLines_wf (bm : RaindropBookmark) :
    ∀ l ∈ (obsidianTags bm.tags).map (str "  - " ++ ·),
      (str "  - ").isPrefixOf l = true ∧ 4 < l.length ∧ nlC ∉ l := by
  have hwf := obsidianTags_wf bm.tags
  intro l hl
  rw [List.mem_map] at hl
  obtain ⟨t, htmem, hteq⟩ := hl
  obtain ⟨htne, htc⟩ := hwf t htmem
  refine ⟨hteq ▸ isPrefixOf_append_self _ _, ?_, ?_⟩
  · rw [← hteq]
    simp [str]
    cases t with
    | nil => exact absurd rfl htne
    | cons c t' => simp
  · rw [← hteq]
    intro hmem
    rcases List.mem_append.mp hmem with h | h
    · revert h; decide
    · exact (wordHyphen_props nlC (htc nlC h)).2 rfl

set_option maxHeartbeats 800000 in
theorem tagGroup_value (bm : RaindropBookmark) (now : Nat) :
    tagLinesGroup (List.intercalate [nlC]
        ((obsidianTags bm.tags).map (str "  - " ++ ·)) ++ nlC ::
        fmTagsTail bm now) =
      ((((obsidianTags bm.tags).map (str "  - " ++ ·)).map (· ++ [nlC])).flatten) := by
  apply tagLinesGroup_spec _ _ ?hne (tagLines_wf bm)
  case hne =>
    intro h
    exact obsidianTags_ne_nil bm.tags (List.map_eq_nil_iff.mp h)
  rw [show fmTagsTail bm now = 'c' :: (str "reated: " ++ bm.created ++
    str "\nlast_synced: " ++ renderNat now ++ fmAfterTime bm) from rfl]
  exact tagStop_of_head 'c' _ (by decide) (by decide)

theorem parseTags_group (bm : RaindropBookmark) :
    ((((splitLines (((((obsidianTags bm.tags).map (str "  - " ++ ·)).map
        (· ++ [nlC])).flatten))).map
      (fun l => trimStr (stripLeadingDash l))).filter
      (fun t => t ≠ [])).map convertTagToRaindropFormat) =
    (obsidianTags bm.tags).map convertTagToRaindropFormat := by
  have hwf := obsidianTags_wf bm.tags
  rw [splitLines_flatten_map _ (fun l hl => (tagLines_wf bm l hl).2.2)]
  have hmap : (((obsidianTags bm.tags).map (str "  - " ++ ·)) ++ [[]]).map
      (fun l => trimStr (stripLeadingDash l)) = obsidianTags bm.tags ++ [[]] := by
    rw [List.map_append]
    congr 1
    · rw [List.map_map]
      have hpt : ∀ t ∈ obsidianTags bm.tags,
          ((fun l => trimStr (stripLeadingDash l)) ∘
            (fun x => str "  - " ++ x)) t = id t := by
        intro t htmem
        obtain ⟨htne, htc⟩ := hwf t htmem
        show trimStr (stripLeadingDash (str "  - " ++ t)) = t
        rw [stripDash_tag t (by
          intro c hc
          cases t with
          | nil => simp at hc
          | cons x t' =>
            simp at hc
            exact hc ▸ (wordHyphen_props x (htc x (List.mem_cons_self x t'))).1)]
        exact trimStr_of_no_ws t (fun c hc => (wordHyphen_props c (htc c hc)).1)
      rw [List.map_congr_left hpt, List.map_id]
  rw [hmap]
  rw [List.filter_append]
  have h1 : (obsidianTags bm.tags).filter (fun t => t ≠ []) =
      obsidianTags bm.tags := by
    apply List.filter_eq_self.mpr
    intro t htmem
    simp [(hwf t htmem).1]
  have h2 : ([([] : Str)].filter (fun t => t ≠ [])) = [] := by decide
  rw [h1, h2, List.append_nil]

set_option maxHeartbeats 800000 in
theorem decodeTagList_gen (bm : RaindropBookmark) (ct : Str) (now : Nat)
    (hfm : extractFrontmatter (generateNoteContent bm ct now) =
      some (fmBlock bm ct now, noteAfterFm bm ct))
    (hscanTags : ∀ i, i < (fmTagsPre bm ct).length →
      anchTags ((fmBlock bm ct now).drop i) = none) :
    decodeTagList (generateNoteContent bm ct now) =
      (obsidianTags bm.tags).map convertTagToRaindropFormat := by
  rw [decodeTagList, hfm]
  show parseTagsFromFm (fmBlock bm ct now) =
    (obsidianTags bm.tags).map convertTagToRaindropFormat
  rw [parseTagsFromFm, matchTags_fmBlock bm ct now hscanTags]
  show ((((splitLines (tagLinesGroup (List.intercalate [nlC]
      ((obsidianTags bm.tags).map (str "  - " ++ ·)) ++ nlC ::
      fmTagsTail bm now))).map
      (fun l => trimStr (stripLeadingDash l))).filter
      (fun t => t ≠ [])).map convertTagToRaindropFormat) =
    (obsidianTags bm.tags).map convertTagToRaindropFormat
  rw [tagGroup_value bm now]
  exact parseTags_group bm

set_option maxRecDepth 4000 in
/-- Claim C9: the claim asserts decode-of-encode recovers the tag set
supplied to the encoder.  Counterexample: encoding the record with tag set
`AI` produces a document whose decoded tag list (by the source's own
tag reader and remote-format conversion, src/main.ts:819-827) is
`Raindrop Bookmarks, Ai`: the default tag is injected and the folding
`AI → ai → Ai` is lossy, so the supplied tag `AI` is not recovered. -/
theorem claimC9_counterexample :
    bmC9.tags = [str "AI"] ∧
    decodeTagList (generateNoteContent bmC9 (str "Col") 3) =
      [str "Raindrop Bookmarks", str "Ai"] ∧
    str "AI" ∉ decodeTagList (generateNoteContent bmC9 (str "Col") 3) := by
  decide

/-- Claim C9 (amended): decoding the document produced by
`generateNoteContent` recovers exactly the title, url, remote id and
collection title supplied to the encoder — verbatim for unquoted values and
through backslash-unescaping for quoted ones — for any single-line values
(no embedded newline, non-empty title); the tag set, however, is recovered
only up to the documented lossy normalisation (lowercase/hyphen folding,
then title-case re-expansion) and the injected `raindrop-bookmarks` default
tag. -/
theorem claimC9_roundtrip (bm : RaindropBookmark) (ct : Str) (now : Nat)
    (ht : bm.title ≠ []) (htn : nlC ∉ bm.title) (hun : nlC ∉ bm.link)
    (hcn : nlC ∉ ct)
    (hfm : extractFrontmatter (generateNoteContent bm ct now) =
      some (fmBlock bm ct now, noteAfterFm bm ct))
    (hscanId : ∀ i, i < (fmIdPre bm).length →
      anchRaindropId ((fmBlock bm ct now).drop i) = none)
    (hscanTags : ∀ i, i < (fmTagsPre bm ct).length →
      anchTags ((fmBlock bm ct now).drop i) = none) :
    decodeYamlField (str "title") (generateNoteContent bm ct now) =
      some bm.title ∧
    decodeYamlField (str "url") (generateNoteContent bm ct now) =
      some bm.link ∧
    decodeYamlField (str "collection") (generateNoteContent bm ct now) =
      some ct ∧
    decodeRaindropId (generateNoteContent bm ct now) = some bm.rid ∧
    decodeTagList (generateNoteContent bm ct now) =
      (obsidianTags bm.tags).map convertTagToRaindropFormat := by
  obtain ⟨h1, h2, h3⟩ := decodeField_gen bm ct now ht htn hun hcn hfm
  exact ⟨h1, h2, h3, decodeRaindropId_gen bm ct now hfm hscanId,
    decodeTagList_gen bm ct now hfm hscanTags⟩

set_option maxRecDepth 4000 in
/-- Witness for C9: the decoders recover the concrete record's fields. -/
theorem claimC9_witness :
    decodeYamlField (str "title") (generateNoteContent bmPlain (str "Col") 3) =
      some bmPlain.title ∧
    decodeYamlField (str "url") (generateNoteContent bmPlain (str "Col") 3) =
      some bmPlain.link ∧
    decodeYamlField (str "collection") (generateNoteContent bmPlain (str "Col") 3) =
      some (str "Col") ∧
    decodeRaindropId (generateNoteContent bmPlain (str "Col") 3) =
      some bmPlain.rid ∧
    decodeTagList (generateNoteContent bmPlain (str "Col") 3) =
      (obsidianTags bmPlain.tags).map convertTagToRaindropFormat :=
  claimC9_roundtrip bmPlain (str "Col") 3 (by decide) (by decide) (by decide)
    (by decide) (by decide) (by decide) (by decide)

theorem vaultGet_single_eq (f : VFile) (p : Str) (h : f.path = p) :
    vaultGet [f] p = some f := by
  rw [vaultGet, List.find?]
  simp [h]

theorem vaultGet_single_ne (f : VFile) (p : Str) (h : ¬ f.path = p) :
    vaultGet [f] p = none := by
  rw [vaultGet, List.find?]
  simp [h]

theorem ensureUnique_single_target (f : VFile) (folder base : Str) (rid : Nat)
    (hpath : f.path = folder ++ '/' :: (base ++ str ".md"))
    (fm r : Str)
    (hfm : extractFrontmatter f.content = some (fm, r))
    (hid : matchRaindropId fm = some rid) :
    ensureUniqueFileName [f] folder base rid = base := by
  rw [ensureUniqueFileName, ensureUniqueAux]
  simp [vaultGet_single_eq f _ hpath, hfm, hid]

theorem ensureUnique_single_other (f : VFile) (folder base : Str) (rid : Nat)
    (hpath : ¬ f.path = folder ++ '/' :: (base ++ str ".md")) :
    ensureUniqueFileName [f] folder base rid = base := by
  rw [ensureUniqueFileName, ensureUniqueAux]
  simp [vaultGet_single_ne f _ hpath]

theorem findFile_single (f : VFile) (rid : Nat) (hmd : isMdFile f = true)
    (fm r : Str)
    (hfm : extractFrontmatter f.content = some (fm, r))
    (hid : matchRaindropId fm = some rid) :
    findFileByRaindropId [f] rid = some f := by
  rw [findFileByRaindropId, List.find?]
  simp [hmd, hfm, hid]

theorem resolveFolderPath_flat (s : RaindropSyncSettings)
    (cols : List RaindropCollection) (now : Nat) (bm : RaindropBookmark)
    (ct : Str) (hcol : s.useCollectionFolders = false) :
    resolveFolderPath s cols now bm ct = some s.resourceFolder := by
  rw [resolveFolderPath, if_neg]
  simp [hcol]

theorem createOrUpdate_at_target (s : RaindropSyncSettings)
    (cols : List RaindropCollection) (now : Nat) (bm : RaindropBookmark)
    (f : VFile) (hcol : s.useCollectionFolders = false)
    (hpath : f.path =
      s.resourceFolder ++ '/' :: (sanitizeFileName now bm.title ++ str ".md"))
    (hmd : isMdFile f = true) (fm r : Str)
    (hfm : extractFrontmatter f.content = some (fm, r))
    (hid : matchRaindropId fm = some bm.rid) :
    createOrUpdateNote s cols now [f] bm =
      some (updateExistingNote [f]
        (s.resourceFolder ++ '/' :: (sanitizeFileName now bm.title ++ str ".md"))
        (generateNoteContent bm (resolveCollectionTitle cols bm) now) f now) := by
  rw [createOrUpdateNote, resolveFolderPath_flat s cols now bm _ hcol]
  simp only [ensureUnique_single_target f _ _ _ hpath fm r hfm hid,
    findFile_single f _ hmd fm r hfm hid,
    vaultGet_single_eq f _ hpath, hpath, ne_eq, not_true_eq_false, if_false,
    ite_self]

theorem createOrUpdate_relocate (s : RaindropSyncSettings)
    (cols : List RaindropCollection) (now : Nat) (bm : RaindropBookmark)
    (f : VFile) (hcol : s.useCollectionFolders = false)
    (hq : ¬ f.path =
      s.resourceFolder ++ '/' :: (sanitizeFileName now bm.title ++ str ".md"))
    (hmd : isMdFile f = true) (fm r : Str)
    (hfm : extractFrontmatter f.content = some (fm, r))
    (hid : matchRaindropId fm = some bm.rid) :
    createOrUpdateNote s cols now [f] bm =
      some ([⟨s.resourceFolder ++ '/' ::
          (sanitizeFileName now bm.title ++ str ".md"),
        generateNoteContent bm (resolveCollectionTitle cols bm) now, now⟩],
        SyncOutcome.created) := by
  rw [createOrUpdateNote, resolveFolderPath_flat s cols now bm _ hcol]
  have hdel : vaultDelete [f] f.path = [] := by
    simp [vaultDelete]
  simp only [ensureUnique_single_other f _ _ _ hq,
    findFile_single f _ hmd fm r hfm hid, ne_eq, hq, not_false_eq_true,
    if_true, hdel]
  simp [vaultGet, List.find?, vaultCreate]

/-- Claim C6: when the record's local counterpart (located by its remote id
in a markdown file's frontmatter) sits at a path different from the freshly
resolved target path, the forward pass deletes the stale copy and creates
the document at the target, so after the pass the old path is absent, the
target path holds a document carrying the record's remote id, and at most
one document in the vault decodes to that remote id. -/
theorem claimC6_relocation (s : RaindropSyncSettings)
    (cols : List RaindropCollection) (now : Nat) (bm : RaindropBookmark)
    (f : VFile) (hcol : s.useCollectionFolders = false)
    (hq : ¬ f.path =
      s.resourceFolder ++ '/' :: (sanitizeFileName now bm.title ++ str ".md"))
    (hmd : isMdFile f = true) (fm r : Str)
    (hfm : extractFrontmatter f.content = some (fm, r))
    (hid : matchRaindropId fm = some bm.rid)
    (hgenfm : extractFrontmatter
        (generateNoteContent bm (resolveCollectionTitle cols bm) now) =
      some (fmBlock bm (resolveCollectionTitle cols bm) now,
        noteAfterFm bm (resolveCollectionTitle cols bm)))
    (hscanId : ∀ i, i < (fmIdPre bm).length →
      anchRaindropId
        ((fmBlock bm (resolveCollectionTitle cols bm) now).drop i) = none) :
    ∃ v1 : Vault,
      createOrUpdateNote s cols now [f] bm = some (v1, SyncOutcome.created) ∧
      vaultGet v1 f.path = none ∧
      (∃ g : VFile, vaultGet v1 (s.resourceFolder ++ '/' ::
          (sanitizeFileName now bm.title ++ str ".md")) = some g ∧
        decodeRaindropId g.content = some bm.rid) ∧
      (v1.filter (fun g =>
        decide (decodeRaindropId g.content = some bm.rid))).length ≤ 1 := by
  refine ⟨[⟨s.resourceFolder ++ '/' ::
      (sanitizeFileName now bm.title ++ str ".md"),
    generateNoteContent bm (resolveCollectionTitle cols bm) now, now⟩],
    createOrUpdate_relocate s cols now bm f hcol hq hmd fm r hfm hid,
    ?_, ?_, ?_⟩
  · rw [vaultGet, List.find?]
    have hne : ¬ (s.resourceFolder ++ '/' ::
        (sanitizeFileName now bm.title ++ str ".md")) = f.path :=
      fun h => hq h.symm
    simp [hne]
  · refine ⟨⟨s.resourceFolder ++ '/' ::
        (sanitizeFileName now bm.title ++ str ".md"),
      generateNoteContent bm (resolveCollectionTitle cols bm) now, now⟩, ?_,
      decodeRaindropId_gen bm (resolveCollectionTitle cols bm) now hgenfm
        hscanId⟩
    rw [vaultGet, List.find?]
    simp
  · exact List.length_filter_le _ _

set_option maxRecDepth 4000 in
/-- Witness for C6: the stale copy of the record at the old title's path is
deleted and the document is re-created at the resolved target path. -/
theorem claimC6_witness :
    ∃ v1 : Vault,
      createOrUpdateNote settingsPlain [] 9 [staleC6] bmPlain =
        some (v1, SyncOutcome.created) ∧
      vaultGet v1 staleC6.path = none ∧
      (∃ g : VFile, vaultGet v1 (settingsPlain.resourceFolder ++ '/' ::
          (sanitizeFileName 9 bmPlain.title ++ str ".md")) = some g ∧
        decodeRaindropId g.content = some bmPlain.rid) ∧
      (v1.filter (fun g =>
        decide (decodeRaindropId g.content = some bmPlain.rid))).length ≤ 1 :=
  claimC6_relocation settingsPlain [] 9 bmPlain staleC6 (by decide) (by decide)
    (by decide)
    (fmBlock { bmPlain with title := str "Old Title" } (str "Unsorted") 3)
    (noteAfterFm { bmPlain with title := str "Old Title" } (str "Unsorted"))
    (by decide) (by decide) (by decide) (by decide)

theorem gen_time_split (bm : RaindropBookmark) (ct : Str) (t : Nat) :
    generateNoteContent bm ct t =
      genTimePre bm ct ++ (renderNat t ++ genTimePost bm ct) := by
  rw [generateNoteContent, noteHeader, fmBlock, genTimePre, fmBeforeTime,
    genTimePost, fmAfterTime, noteAfterFm]
  simp only [List.append_assoc, List.cons_append, List.nil_append]
  rw [show str "\n---\n\n# " = str "\n---" ++ str "\n\n# " from rfl]
  simp [List.append_assoc]

theorem gen_time_ne (bm : RaindropBookmark) (ct : Str) (t1 t2 : Nat)
    (hne : ¬ t1 = t2) :
    ¬ generateNoteContent bm ct t1 = generateNoteContent bm ct t2 := by
  intro h
  rw [gen_time_split, gen_time_split] at h
  exact hne (renderNat_injective
    (List.append_cancel_right (List.append_cancel_left h)))

theorem localEditGuard_fresh (cols : List RaindropCollection) (now1 : Nat)
    (bm : RaindropBookmark)
    (hls : matchLastSynced (fmBlock bm (resolveCollectionTitle cols bm) now1) =
      some (renderNat now1)) :
    localEditGuard (fmBlock bm (resolveCollectionTitle cols bm) now1) now1 =
      false := by
  rw [localEditGuard, hls]
  show (match parseTimestamp (renderNat now1) with
    | some ls => decide (now1 > ls)
    | none => false) = false
  rw [parseTimestamp_renderNat]
  simp

theorem updateExisting_stale (v : Vault) (p : Str) (nc : Str) (f : VFile)
    (now : Nat) (fm r : Str)
    (hfm : extractFrontmatter f.content = some (fm, r))
    (hguard : localEditGuard fm f.mtime = false)
    (hovr : titleColonTest fm = false)
    (hneq : ¬ f.content = nc) :
    updateExistingNote v p nc f now = (vaultModify v p nc now,
      SyncOutcome.updated) := by
  rw [updateExistingNote]
  simp only [hfm, hovr, Bool.and_false, hguard, Bool.false_eq_true, if_false,
    ne_eq, hneq, not_false_eq_true, if_true]

set_option maxRecDepth 4000 in
/-- Claim C2 counterexample: the claim asserts a second forward pass with no
remote or local changes reports every existing document as skipped.  In
fact the second pass regenerates the document with the fresh sync time, the
byte-compare sees the changed `last_synced` value, and the record is
reported updated: pass one at time 3 creates the document, and the second
pass at time 9 on the unchanged vault reports updated, not skipped. -/
theorem claimC2_counterexample :
    (createOrUpdateNote settingsPlain [] 3 [] bmPlain).map Prod.snd =
      some SyncOutcome.created ∧
    (createOrUpdateNote settingsPlain [] 3 [] bmPlain).map Prod.fst =
      some vaultC2 ∧
    (createOrUpdateNote settingsPlain [] 9 vaultC2 bmPlain).map Prod.snd =
      some SyncOutcome.updated ∧
    ¬ (createOrUpdateNote settingsPlain [] 9 vaultC2 bmPlain).map Prod.snd =
      some SyncOutcome.skipped := by
  decide

/-- Claim C2 (amended): a second forward pass over the unchanged output of a
first pass creates nothing — but it does not skip: because the regenerated
document carries the fresh sync time and the stored one carries the old, the
byte-compare fails whenever the two run times differ, and the record is
reported updated. -/
theorem claimC2_amended (s : RaindropSyncSettings)
    (cols : List RaindropCollection) (now1 now2 : Nat) (bm : RaindropBookmark)
    (hcol : s.useCollectionFolders = false) (hne : ¬ now1 = now2)
    (hmd : isMdFile ⟨s.resourceFolder ++ '/' ::
        (sanitizeFileName now2 bm.title ++ str ".md"),
      generateNoteContent bm (resolveCollectionTitle cols bm) now1, now1⟩ = true)
    (hfm : extractFrontmatter
        (generateNoteContent bm (resolveCollectionTitle cols bm) now1) =
      some (fmBlock bm (resolveCollectionTitle cols bm) now1,
            noteAfterFm bm (resolveCollectionTitle cols bm)))
    (hid : matchRaindropId (fmBlock bm (resolveCollectionTitle cols bm) now1) =
      some bm.rid)
    (hls : matchLastSynced (fmBlock bm (resolveCollectionTitle cols bm) now1) =
      some (renderNat now1))
    (hovr : titleColonTest (fmBlock bm (resolveCollectionTitle cols bm) now1) =
      false) :
    (createOrUpdateNote s cols now2 [⟨s.resourceFolder ++ '/' ::
        (sanitizeFileName now2 bm.title ++ str ".md"),
      generateNoteContent bm (resolveCollectionTitle cols bm) now1, now1⟩]
      bm).map Prod.snd = some SyncOutcome.updated ∧
    ¬ (createOrUpdateNote s cols now2 [⟨s.resourceFolder ++ '/' ::
        (sanitizeFileName now2 bm.title ++ str ".md"),
      generateNoteContent bm (resolveCollectionTitle cols bm) now1, now1⟩]
      bm).map Prod.snd = some SyncOutcome.created := by
  have hguard : localEditGuard
      (fmBlock bm (resolveCollectionTitle cols bm) now1) now1 = false :=
    localEditGuard_fresh cols now1 bm hls
  have hneq : ¬ generateNoteContent bm (resolveCollectionTitle cols bm) now1 =
      generateNoteContent bm (resolveCollectionTitle cols bm) now2 :=
    gen_time_ne bm _ now1 now2 hne
  have hmain := createOrUpdate_at_target s cols now2 bm
    ⟨s.resourceFolder ++ '/' :: (sanitizeFileName now2 bm.title ++ str ".md"),
      generateNoteContent bm (resolveCollectionTitle cols bm) now1, now1⟩
    hcol rfl hmd _ _ hfm hid
  rw [updateExisting_stale
    [⟨s.resourceFolder ++ '/' :: (sanitizeFileName now2 bm.title ++ str ".md"),
      generateNoteContent bm (resolveCollectionTitle cols bm) now1, now1⟩]
    (s.resourceFolder ++ '/' :: (sanitizeFileName now2 bm.title ++ str ".md"))
    (generateNoteContent bm (resolveCollectionTitle cols bm) now2)
    ⟨s.resourceFolder ++ '/' :: (sanitizeFileName now2 bm.title ++ str ".md"),
      generateNoteContent bm (resolveCollectionTitle cols bm) now1, now1⟩
    now2 (fmBlock bm (resolveCollectionTitle cols bm) now1)
    (noteAfterFm bm (resolveCollectionTitle cols bm)) hfm hguard hovr hneq]
    at hmain
  rw [hmain]
  constructor
  · rfl
  · show ¬ (some SyncOutcome.updated : Option SyncOutcome) =
      some SyncOutcome.created
    decide

set_option maxRecDepth 4000 in
/-- Witness for C2 (amended): the concrete second pass at time 9 over the
time-3 output reports updated and creates nothing. -/
theorem claimC2_witness :
    (createOrUpdateNote settingsPlain [] 9 [⟨settingsPlain.resourceFolder ++
        '/' :: (sanitizeFileName 9 bmPlain.title ++ str ".md"),
      generateNoteContent bmPlain (resolveCollectionTitle [] bmPlain) 3, 3⟩]
      bmPlain).map Prod.snd = some SyncOutcome.updated ∧
    ¬ (createOrUpdateNote settingsPlain [] 9 [⟨settingsPlain.resourceFolder ++
        '/' :: (sanitizeFileName 9 bmPlain.title ++ str ".md"),
      generateNoteContent bmPlain (resolveCollectionTitle [] bmPlain) 3, 3⟩]
      bmPlain).map Prod.snd = some SyncOutcome.created :=
  claimC2_amended settingsPlain [] 3 9 bmPlain (by decide) (by decide)
    (by decide) (by decide) (by decide) (by decide) (by decide)

theorem anchNotes_at_heading (N : Str) (hhead : ¬ N.head? = some nlC) :
    anchNotes (str "## Notes\n\n" ++ N) = some N := by
  cases N with
  | nil => decide
  | cons c t =>
    have hc : ¬ c = nlC := fun e =>
      hhead (by rw [show (c :: t).head? = some c from rfl, e])
    have hw : (nlC :: nlC :: c :: t).takeWhile (· = nlC) = [nlC, nlC] := by
      simp [List.takeWhile_cons, hc]
    rw [anchNotes, if_pos (by rfl)]
    show (if (nlC :: nlC :: c :: t).takeWhile (· = nlC) ≠ [] then
        some (List.drop ((nlC :: nlC :: c :: t).takeWhile (· = nlC)).length
          (nlC :: nlC :: c :: t))
      else none) = some (c :: t)
    rw [hw]
    simp

theorem anchNotesSpan_at_heading (T : Str) :
    anchNotesSpan (str "## Notes\n\n" ++ T) =
      some (str "## Notes\n\n" ++ T, [],
        [(nlC :: nlC :: T).drop
          ((nlC :: nlC :: T).takeWhile (· = nlC)).length]) := by
  rw [anchNotesSpan, if_pos (by rfl)]
  show (if (nlC :: nlC :: T).takeWhile (· = nlC) ≠ [] then
      some (str "## Notes\n\n" ++ T, [],
        [List.drop ((nlC :: nlC :: T).takeWhile (· = nlC)).length
          (nlC :: nlC :: T)])
    else none) = _
  rw [if_pos (by
    rw [show (nlC :: nlC :: T).takeWhile (· = nlC) =
      nlC :: ((nlC :: T).takeWhile (· = nlC)) from rfl]
    simp)]

theorem replaceNotes_gen (bm : RaindropBookmark) (ct : Str) (now : Nat)
    (N : Str) (hd : dollarC ∉ N)
    (hscan : ∀ i, i < (noteHeader bm ct now).length →
      anchNotesSpan ((generateNoteContent bm ct now).drop i) = none) :
    replaceNotesSection N (generateNoteContent bm ct now) =
      noteHeader bm ct now ++ (str "## Notes\n\n" ++ N) := by
  have hgen : generateNoteContent bm ct now =
      noteHeader bm ct now ++ (str "## Notes\n\n" ++ (bm.note ++ [nlC])) := by
    rw [generateNoteContent]
    simp [List.append_assoc]
  rw [replaceNotesSection, replaceFirst, hgen]
  rw [replaceFirstAux_skip anchNotesSpan (str "## Notes\n\n" ++ N)
    (noteHeader bm ct now) (str "## Notes\n\n" ++ (bm.note ++ [nlC])) []
    (by intro i hi
        have := hscan i hi
        rwa [hgen] at this)]
  rw [replaceFirstAux_hit anchNotesSpan (str "## Notes\n\n" ++ N)
    ([] ++ noteHeader bm ct now) (str "## Notes\n\n" ++ (bm.note ++ [nlC]))
    (str "## Notes\n\n" ++ (bm.note ++ [nlC])) []
    [(nlC :: nlC :: (bm.note ++ [nlC])).drop
      ((nlC :: nlC :: (bm.note ++ [nlC])).takeWhile (· = nlC)).length]
    (anchNotesSpan_at_heading (bm.note ++ [nlC]))
    (by apply List.append_ne_nil_of_left_ne_nil; decide)]
  rw [substTemplate_no_dollar _ _ _ _ _ (by
    intro hmem
    rcases List.mem_append.mp hmem with h1 | h1
    · revert h1; decide
    · exact hd h1)]
  simp

theorem annotation_merged (H N : Str) (hhead : ¬ N.head? = some nlC)
    (htrim : trimStr N = N)
    (hscan : ∀ i, i < H.length →
      anchNotes ((H ++ (str "## Notes\n\n" ++ N)).drop i) = none) :
    annotationBody (H ++ (str "## Notes\n\n" ++ N)) = some N := by
  have hsc : scanFirst anchNotes (str "## Notes\n\n" ++ N) = some N :=
    scanFirst_cons_some anchNotes '#' (str "# Notes\n\n" ++ N) N
      (anchNotes_at_heading N hhead)
  rw [annotationBody, matchNotes, scanFirst_append anchNotes H _ hscan, hsc]
  simp [htrim]

theorem updateExisting_preserve (v : Vault) (p nc : Str) (f : VFile)
    (now : Nat) (fm r : Str)
    (hfm : extractFrontmatter f.content = some (fm, r))
    (hguard : localEditGuard fm f.mtime = true) :
    updateExistingNote v p nc f now =
      (vaultModify v p
        (replaceNotesSection (((matchNotes f.content).map trimStr).getD []) nc)
        now, SyncOutcome.updated) := by
  rw [updateExistingNote]
  simp only [hfm, hguard, if_true]

set_option maxRecDepth 4000 in
/-- Claim C1 counterexample: the claim asserts the merged document's
annotation section always equals the existing document's annotation body.
The merge splices the preserved annotation into a `String.replace`
template, so JS substitution patterns in the annotation are interpreted: an
annotation consisting of the text dollar-ampersand is replaced by the whole
matched notes section, and the merged document's annotation body is the
duplicated fresh notes section instead of the preserved text.  The title is
still refreshed and the record still reports updated. -/
theorem claimC1_counterexample :
    annotationBody oldContentC1 = some (str "$&") ∧
    (createOrUpdateNote settingsPlain [] 9 vaultC1 bmC1).map Prod.snd =
      some SyncOutcome.updated ∧
    (createOrUpdateNote settingsPlain [] 9 vaultC1 bmC1).map Prod.fst =
      some (vaultModify vaultC1 (str "Resources/Note.md") mergedC1 9) ∧
    annotationBody mergedC1 = some (str "## Notes\n\nfresh") ∧
    ¬ annotationBody mergedC1 = some (str "$&") ∧
    decodeYamlField (str "title") mergedC1 = some bmC1.title := by
  decide

/-- Claim C1 (amended): for a record whose document exists at the resolved
target path with a parseable last_synced older than the file's modification
time, the forward pass writes the freshly generated header (carrying the
fresh remote metadata, including the new title) followed by the notes
heading and the existing document's trimmed annotation body, and reports
updated — provided the annotation body contains no dollar character, since
the merge splices it into a replace template where dollar sequences are
substitution patterns. -/
theorem claimC1_amended (s : RaindropSyncSettings)
    (cols : List RaindropCollection) (now : Nat) (bm : RaindropBookmark)
    (f : VFile) (N : Str)
    (hcol : s.useCollectionFolders = false)
    (hpath : f.path =
      s.resourceFolder ++ '/' :: (sanitizeFileName now bm.title ++ str ".md"))
    (hmd : isMdFile f = true) (fm r : Str)
    (hfm : extractFrontmatter f.content = some (fm, r))
    (hid : matchRaindropId fm = some bm.rid)
    (hguard : localEditGuard fm f.mtime = true)
    (hloc : ((matchNotes f.content).map trimStr).getD [] = N)
    (hd : dollarC ∉ N)
    (hhead : ¬ N.head? = some nlC)
    (htrim : trimStr N = N)
    (hscan1 : ∀ i,
      i < (noteHeader bm (resolveCollectionTitle cols bm) now).length →
      anchNotesSpan
        ((generateNoteContent bm (resolveCollectionTitle cols bm) now).drop i) =
        none)
    (hscan2 : ∀ i,
      i < (noteHeader bm (resolveCollectionTitle cols bm) now).length →
      anchNotes ((noteHeader bm (resolveCollectionTitle cols bm) now ++
        (str "## Notes\n\n" ++ N)).drop i) = none) :
    createOrUpdateNote s cols now [f] bm =
      some (vaultModify [f]
        (s.resourceFolder ++ '/' :: (sanitizeFileName now bm.title ++ str ".md"))
        (noteHeader bm (resolveCollectionTitle cols bm) now ++
          (str "## Notes\n\n" ++ N)) now,
        SyncOutcome.updated) ∧
    annotationBody (noteHeader bm (resolveCollectionTitle cols bm) now ++
      (str "## Notes\n\n" ++ N)) = some N := by
  constructor
  · rw [createOrUpdate_at_target s cols now bm f hcol hpath hmd fm r hfm hid]
    rw [updateExisting_preserve [f]
      (s.resourceFolder ++ '/' :: (sanitizeFileName now bm.title ++ str ".md"))
      (generateNoteContent bm (resolveCollectionTitle cols bm) now) f now fm r
      hfm hguard]
    rw [hloc,
      replaceNotes_gen bm (resolveCollectionTitle cols bm) now N hd hscan1]
  · exact annotation_merged _ N hhead htrim hscan2

set_option maxRecDepth 4000 in
/-- Witness for C1 (amended): the dollar-free kept annotation survives the
merge verbatim while the header is regenerated from the fresh record. -/
theorem claimC1_witness :
    createOrUpdateNote settingsPlain [] 9 [fileC1] bmC1 =
      some (vaultModify [fileC1]
        (settingsPlain.resourceFolder ++ '/' ::
          (sanitizeFileName 9 bmC1.title ++ str ".md"))
        (noteHeader bmC1 (resolveCollectionTitle [] bmC1) 9 ++
          (str "## Notes\n\n" ++ str "kept-text")) 9,
        SyncOutcome.updated) ∧
    annotationBody (noteHeader bmC1 (resolveCollectionTitle [] bmC1) 9 ++
      (str "## Notes\n\n" ++ str "kept-text")) = some (str "kept-text") :=
  claimC1_amended settingsPlain [] 9 bmC1 fileC1 (str "kept-text")
    (by decide) (by decide) (by decide)
    (fmBlock keptBmC1 (str "Unsorted") 3)
    (noteAfterFm keptBmC1 (str "Unsorted"))
    (by decide) (by decide) (by decide) (by decide) (by decide) (by decide)
    (by decide) (by decide) (by decide)
